import Mathlib

/-!
Shallow embedding of the dokojong back-end room coordinator
(`src/game.py`, `src/user.py`) and proofs about its seat / operator /
dispatch behaviour.

Modelling conventions:
* A Python `User` object is identified by the user-id key under which it
  is stored in `Room.users` (`register_user` creates exactly one object
  per key, so object identity coincides with key equality).
* A websocket is modelled by `Option Bool`: `none` is "no websocket"
  (`self.ws = None`), `some b` is a websocket whose
  `client_state == CONNECTED` test yields `b`.
* Python list indexing (negative indices allowed, `IndexError` out of
  range) is modelled by `pyResolve` / `pyIdx` / `pySetChk` / `pyPopChk`.
* A handler invocation produces an `Eff`: the room state after the call
  (at the raise point if an exception escaped), the list of frames that
  were actually transmitted over some websocket, and an exception flag.
-/

/-- JSON-like values appearing in outbound frames. -/
inductive JVal where
  | jb : Bool → JVal
  | ji : Int → JVal
  | js : String → JVal
  | jnull : JVal
  | jarr : List JVal → JVal
  | jobj : List (String × JVal) → JVal

/-- Inbound Python values as seen by `make_handler`'s isinstance checks. -/
inductive PyV where
  | vint : Int → PyV
  | vbool : Bool → PyV
  | vstr : String → PyV
  | vother : PyV
deriving DecidableEq, Repr

/-- The primitive annotation types used by the handlers. -/
inductive PyTy where
  | int
  | bool
  | str
deriving DecidableEq, Repr

/-- Python `isinstance`.  A `bool` is an instance of `int`
(`bool` is a subclass of `int` in Python), but not conversely. -/
def isinst : PyV → PyTy → Bool
  | .vint _, .int => true
  | .vbool _, .int => true
  | .vbool _, .bool => true
  | .vstr _, .str => true
  | _, _ => false

/-- The state of one `User` object (`src/user.py`). -/
structure UserD where
  ws : Option Bool
  seat : Int
  nickname : String
  order : Nat
deriving DecidableEq, Repr

/-- `User.__init__`: fresh user bound to websocket `w`. -/
def UserD.init (w : Option Bool) : UserD :=
  { ws := w, seat := -1, nickname := "", order := 0 }

/-- `User.is_online`. -/
def UserD.is_online (d : UserD) : Bool :=
  d.ws = some true

/-- `User.is_player` (`self.seat > -1`). -/
def UserD.is_player (d : UserD) : Bool :=
  decide (0 ≤ d.seat)

/-- `User.take_seat` with an explicit `order` argument. -/
def UserD.take_seat_ord (d : UserD) (seat : Int) (nickname : String) (order : Nat) : UserD :=
  { d with seat := seat, nickname := nickname, order := order }

/-- `User.take_seat` without the optional `order` argument. -/
def UserD.take_seat_keep (d : UserD) (seat : Int) (nickname : String) : UserD :=
  { d with seat := seat, nickname := nickname }

/-- `User.leave_seat`. -/
def UserD.leave_seat (d : UserD) : UserD :=
  { d with seat := -1, order := 0 }

/-- Association-list lookup, mirroring `dict.__getitem__` / `in`. -/
def lookupU (l : List (Nat × UserD)) (k : Nat) : Option UserD :=
  match l with
  | [] => none
  | (k', d) :: rest => if k' = k then some d else lookupU rest k

/-- In-place mutation of the user object stored under key `k`
(Python mutates the shared object; we rewrite every entry of the key). -/
def updateU (l : List (Nat × UserD)) (k : Nat) (f : UserD → UserD) : List (Nat × UserD) :=
  match l with
  | [] => []
  | (k', d) :: rest => (k', if k' = k then f d else d) :: updateU rest k f

/-- `del users[k]`. -/
def eraseU (l : List (Nat × UserD)) (k : Nat) : List (Nat × UserD) :=
  match l with
  | [] => []
  | (k', d) :: rest => if k' = k then eraseU rest k else (k', d) :: eraseU rest k

/-- Resolve a Python list index: non-negative in-range as is, negative
in-range from the back, otherwise `none` (`IndexError`). -/
def pyResolve (len : Nat) (i : Int) : Option Nat :=
  if 0 ≤ i then
    if i < (len : Int) then some i.toNat else none
  else
    if -(len : Int) ≤ i then some (i + (len : Int)).toNat else none

/-- Python `l[i]` read. -/
def pyIdx (l : List α) (i : Int) : Option α :=
  (pyResolve l.length i).bind (fun k => l.get? k)

/-- Python `l[i] = a`. -/
def pySetChk (l : List α) (i : Int) (a : α) : Option (List α) :=
  (pyResolve l.length i).map (fun k => l.set k a)

/-- Python `l.pop(i)`. -/
def pyPopChk (l : List α) (i : Int) : Option (List α) :=
  (pyResolve l.length i).map (fun k => l.eraseIdx k)

/-- `is_online` of the user object stored under key `u`. -/
def uOnline (us : List (Nat × UserD)) (u : Nat) : Bool :=
  match lookupU us u with
  | some d => d.is_online
  | none => false

/-- `order` of the user object stored under key `u`. -/
def uOrder (us : List (Nat × UserD)) (u : Nat) : Nat :=
  match lookupU us u with
  | some d => d.order
  | none => 0

/-- The occupants of a seat list, in seat order. -/
def occupantsOf (seats : List (Option Nat)) : List Nat :=
  seats.filterMap id

example : pyIdx [some 4, none] (-2) = some (some 4) := by decide
example : pyIdx [some 4, none] 2 = (none : Option (Option Nat)) := by decide
example : pySetChk [1, 2, 3] (-1) 9 = some [1, 2, 9] := by decide
example : pyPopChk [1, 2, 3] 0 = some [2, 3] := by decide
example : isinst (.vbool true) .int = true := by decide
example : isinst (.vint 1) .bool = false := by decide

/-- The state of a `Room` (`src/game.py`).  The seven members that
Python leaves uninitialized until `start_game` are `Option`s; reading
them while `none` is the model of `AttributeError`. -/
structure Room where
  gaming : Bool
  order_issuer : Nat
  users : List (Nat × UserD)
  seats : List (Option Nat)
  operator : Option Nat
  quick_game : Bool
  leader : Option Nat
  last_message : Option String
  doors_opened : Option (List Bool)
  player_active : Option (List Bool)
  player_scores : Option (List (List Int))
  player_tiles : Option (List (List (Option Bool)))
  player_dogs : Option (List Int)
deriving DecidableEq, Repr

/-- `Room.__init__` with `seat_number` seats. -/
def Room.init (seat_number : Nat) : Room :=
  { gaming := false, order_issuer := 0, users := [],
    seats := List.replicate seat_number none, operator := none,
    quick_game := true, leader := none, last_message := none,
    doors_opened := none, player_active := none, player_scores := none,
    player_tiles := none, player_dogs := none }

/-- An outbound JSON frame: `{"type": ..., **data}` in insertion order. -/
abbrev Frame := List (String × JVal)

/-- One transmitted frame together with its recipient. -/
abbrev Send := Nat × Frame

/-- The result of one handler invocation: final room state (at the
raise point if an exception escaped), transmitted frames, and whether
an exception escaped. -/
structure Eff where
  room : Room
  sends : List Send
  exn : Bool

/-- `Room.get_seat_status`. -/
def Room.get_seat_status (r : Room) (me : Nat) : List JVal :=
  r.seats.map (fun slot =>
    match slot with
    | none => JVal.jnull
    | some p =>
      match lookupU r.users p with
      | none => JVal.jnull
      | some d =>
        JVal.jobj [("nickname", .js d.nickname), ("online", .jb d.is_online),
                   ("me", .jb (decide (p = me))),
                   ("operator", .jb (decide (r.operator = some p)))])

/-- `Room.get_game_status`; `none` models `AttributeError` on an
uninitialized member. -/
def Room.get_game_status (r : Room) : Option Frame :=
  match r.leader, r.doors_opened, r.player_scores, r.player_tiles with
  | some l, some doors, some scores, some tiles =>
    match lookupU r.users l with
    | some d =>
      some [("leader", .ji d.seat),
            ("doors", .jarr (doors.map .jb)),
            ("scores", .jarr (scores.map (fun s => .jarr (s.map .ji)))),
            ("tiles", .jarr (tiles.map (fun row =>
              .jarr (row.map (fun t =>
                match t with
                | none => JVal.jnull
                | some b => JVal.jb b)))))]
    | none => none
  | _, _, _, _ => none

/-- The payload computed by `Room.send_data_to` for each data type;
`none` models the exceptional arms (`RuntimeError` for an unknown type,
`AttributeError`/`IndexError` while building the payload). -/
def Room.payloadFor (r : Room) (uid : Nat) (t : String) : Option Frame :=
  if t = "room.status" then some [("gaming", .jb r.gaming)]
  else if t = "seat.status" then some [("status", .jarr (r.get_seat_status uid))]
  else if t = "game.settings" then some [("quick_game", .jb r.quick_game)]
  else if t = "game.status" then r.get_game_status
  else if t = "tiles.setup" then
    (r.player_active).map (fun act => [("active", .jarr (act.map .jb))])
  else if t = "dog.place" then
    match lookupU r.users uid with
    | none => none
    | some d =>
      if d.is_player then
        match r.player_dogs with
        | none => none
        | some dogs => (pyIdx dogs d.seat).map (fun p => [("position", .ji p)])
      else some [("position", .ji (-1))]
  else none

/-- `User.send_data`: transmit only over a live websocket. -/
def UserD.send_data (d : UserD) (uid : Nat) (t : String) (payload : Frame) : List Send :=
  if d.is_online then [(uid, ("type", JVal.js t) :: payload)] else []

/-- `Room.send_data_to`: compute the payload, then hand it to
`User.send_data`. -/
def Room.send_data_to (r : Room) (uid : Nat) (t : String) : List Send × Bool :=
  match r.payloadFor uid t with
  | none => ([], true)
  | some payload =>
    match lookupU r.users uid with
    | none => ([], false)
    | some d => (d.send_data uid t payload, false)

/-- `Room.broadcast_data`: one `send_data_to` per member of `users`. -/
def Room.broadcast_data (r : Room) (t : String) : List Send × Bool :=
  r.users.foldr
    (fun p acc =>
      let s := r.send_data_to p.1 t
      (s.1 ++ acc.1, s.2 || acc.2))
    ([], false)

/-- `Room.register_user`.  `live` is the `client_state == CONNECTED`
status of the incoming websocket; rebinding closes the old socket,
which does not affect room state. -/
def Room.register_user (r : Room) (uid : Nat) (live : Bool) : Eff :=
  match lookupU r.users uid with
  | some _ =>
    let r1 := { r with users := updateU r.users uid (fun d => { d with ws := some live }) }
    let s := r1.send_data_to uid "room.status"
    ⟨r1, s.1, s.2⟩
  | none =>
    let r1 := { r with users := r.users ++ [(uid, UserD.init (some live))] }
    let s := r1.send_data_to uid "room.status"
    ⟨r1, s.1, s.2⟩

/-- `Room.unregister_user`. -/
def Room.unregister_user (r : Room) (uid : Nat) : Eff :=
  match lookupU r.users uid with
  | none => ⟨r, [], false⟩
  | some d =>
    if d.is_player then
      let r1 := { r with users := updateU r.users uid (fun d => { d with ws := none }) }
      let b := r1.broadcast_data "seat.status"
      ⟨r1, b.1, b.2⟩
    else
      ⟨{ r with users := eraseU r.users uid }, [], false⟩

/-- `Room.hall_init` (body after the guards). -/
def Room.hall_init (r : Room) (uid : Nat) (me : UserD) : Eff :=
  if me.is_player then
    let r1 := if r.operator = none then { r with operator := some uid } else r
    let b := r1.broadcast_data "seat.status"
    ⟨r1, b.1, b.2⟩
  else
    let s := r.send_data_to uid "seat.status"
    ⟨r, s.1, s.2⟩

/-- `if self.operator is None: self.operator = me` (shared by the seat
handlers). -/
def Room.withOpClaim (r1 : Room) (uid : Nat) : Room :=
  if r1.operator = none then { r1 with operator := some uid } else r1

/-- Broadcast the seat roster and package the result. -/
def Room.seatBroadcastEff (r2 : Room) : Eff :=
  let b := r2.broadcast_data "seat.status"
  ⟨r2, b.1, b.2⟩

/-- `Room.take_seat` (body after the guards).  Python evaluates
`me.seat != seat` first, then indexes `self.seats[seat]`
(possibly raising `IndexError`), occupies the slot, and only then
vacates the previous slot — which can itself raise after the first
mutation. -/
def Room.take_seat (r : Room) (uid : Nat) (me : UserD) (seat : Int) (nickname : String) : Eff :=
  if me.seat = seat then ⟨r, [], false⟩
  else
    match pyResolve r.seats.length seat with
    | none => ⟨r, [], true⟩
    | some k =>
      match r.seats.get? k with
      | none => ⟨r, [], true⟩
      | some (some _) => ⟨r, [], false⟩
      | some none =>
        if me.is_player then
          match pySetChk (r.seats.set k (some uid)) me.seat none with
          | none => ⟨{ r with seats := r.seats.set k (some uid) }, [], true⟩
          | some seats2 =>
            let users1 := updateU r.users uid (fun d => d.take_seat_keep seat nickname)
            Room.seatBroadcastEff
              (Room.withOpClaim { r with seats := seats2, users := users1 } uid)
        else
          let iss := r.order_issuer + 1
          let users1 := updateU r.users uid (fun d => d.take_seat_ord seat nickname iss)
          Room.seatBroadcastEff
            (Room.withOpClaim
              { r with seats := r.seats.set k (some uid), order_issuer := iss, users := users1 }
              uid)

/-- The reindexing loop of `Room.remove_seat`
(`for i, player in enumerate(self.seats): player.seat = i`). -/
def reindexFrom (i : Nat) (seats : List (Option Nat)) (us : List (Nat × UserD)) :
    List (Nat × UserD) :=
  match seats with
  | [] => us
  | none :: rest => reindexFrom (i + 1) rest us
  | some p :: rest => reindexFrom (i + 1) rest (updateU us p (fun d => { d with seat := (i : Int) }))

/-- `Room.remove_seat` (body after the guards). -/
def Room.remove_seat (r : Room) (uid : Nat) (me : UserD) (seat : Int) : Eff :=
  match pyResolve r.seats.length seat with
  | none => ⟨r, [], true⟩
  | some k =>
    match r.seats.get? k with
    | none => ⟨r, [], true⟩
    | some (some _) => ⟨r, [], false⟩
    | some none =>
      let seats1 := r.seats.eraseIdx k
      let r1 := { r with seats := seats1, users := reindexFrom 0 seats1 r.users }
      let b := r1.broadcast_data "seat.status"
      ⟨r1, b.1, b.2⟩

/-- One iteration of the operator-succession loop of
`Room.remove_player`. -/
def candStep (us : List (Nat × UserD)) (cand : Option Nat) (slot : Option Nat) : Option Nat :=
  match slot with
  | none => cand
  | some p =>
    if uOnline us p then
      match cand with
      | none => some p
      | some c => if uOrder us p < uOrder us c then some p else cand
    else cand

/-- The operator-succession loop: first online occupant with minimal
`order` (strictly smaller order replaces the running candidate). -/
def candFold (us : List (Nat × UserD)) (seats : List (Option Nat)) : Option Nat :=
  seats.foldl (candStep us) none

/-- The room state after `remove_player` vacates slot `k` occupied by
`p`; `handover` is `remove_myself and im_operator`. -/
def Room.afterRemoval (r : Room) (p k : Nat) (handover : Bool) : Room :=
  { gaming := r.gaming, order_issuer := r.order_issuer,
    users := updateU r.users p UserD.leave_seat,
    seats := r.seats.set k none,
    operator :=
      if handover then candFold (updateU r.users p UserD.leave_seat) (r.seats.set k none)
      else r.operator,
    quick_game := r.quick_game, leader := r.leader, last_message := r.last_message,
    doors_opened := r.doors_opened, player_active := r.player_active,
    player_scores := r.player_scores, player_tiles := r.player_tiles,
    player_dogs := r.player_dogs }

/-- `Room.remove_player` (body after the guards). -/
def Room.remove_player (r : Room) (uid : Nat) (me : UserD) (seat : Int) : Eff :=
  match pyResolve r.seats.length seat with
  | none => ⟨r, [], true⟩
  | some k =>
    match r.seats.get? k with
    | none => ⟨r, [], true⟩
    | some none => ⟨r, [], false⟩
    | some (some p) =>
      if decide (p = uid) || decide (r.operator = some uid) then
        Room.seatBroadcastEff
          (r.afterRemoval p k (decide (p = uid) && decide (r.operator = some uid)))
      else ⟨r, [], false⟩

/-- `Room.add_seat` (body after the guards). -/
def Room.add_seat (r : Room) (uid : Nat) (me : UserD) : Eff :=
  let r1 := { r with seats := r.seats ++ [none] }
  let b := r1.broadcast_data "seat.status"
  ⟨r1, b.1, b.2⟩

/-- `Room.take_operator` (body after the guards). -/
def Room.take_operator (r : Room) (uid : Nat) (me : UserD) : Eff :=
  let free :=
    match r.operator with
    | none => true
    | some o => !uOnline r.users o
  if free then
    let r1 := { r with operator := some uid }
    let b := r1.broadcast_data "seat.status"
    ⟨r1, b.1, b.2⟩
  else ⟨r, [], false⟩

/-- `Room.change_settings` (body after the guards). -/
def Room.change_settings (r : Room) (uid : Nat) (me : UserD) (quick : Bool) : Eff :=
  if quick ≠ r.quick_game then
    let r1 := { r with quick_game := quick }
    let b := r1.broadcast_data "game.settings"
    ⟨r1, b.1, b.2⟩
  else ⟨r, [], false⟩

/-- The occupancy scan at the top of `Room.start_game`: all occupants
in seat order, or `none` as soon as an empty seat is found. -/
def allPlayers : List (Option Nat) → Option (List Nat)
  | [] => some []
  | none :: _ => none
  | some p :: rest => (allPlayers rest).map (fun l => p :: l)

/-- `Room.start_game` (body after the guards).  `self.gaming = True` is
assigned before `players[0]` is read, so with zero seats the room is
left gaming with nothing initialized and an `IndexError` escaping. -/
def Room.start_game (r : Room) (uid : Nat) (me : UserD) : Eff :=
  match allPlayers r.seats with
  | none => ⟨r, [], false⟩
  | some players =>
    let r1 := { r with gaming := true }
    match players.head? with
    | none => ⟨r1, [], true⟩
    | some l =>
      let n := players.length
      let r2 : Room :=
        { gaming := true, order_issuer := r1.order_issuer, users := r1.users,
          seats := r1.seats, operator := r1.operator, quick_game := r1.quick_game,
          leader := some l, last_message := some "tiles.setup",
          doors_opened := some (List.replicate 5 false),
          player_active := some (List.replicate n true),
          player_scores := some (List.replicate n [0, 3]),
          player_tiles := some (List.replicate n (List.replicate 5 none)),
          player_dogs := some (List.replicate n (-1)) }
      let b := r2.broadcast_data "room.status"
      ⟨r2, b.1, b.2⟩

/-- `Room.board_init` (body after the guards). -/
def Room.board_init (r : Room) (uid : Nat) (me : UserD) : Eff :=
  let s1 := r.send_data_to uid "seat.status"
  let s2 := r.send_data_to uid "game.status"
  let s3 := r.send_data_to uid "dog.place"
  let s4 :=
    match r.last_message with
    | none => (([] : List Send), true)
    | some t => r.send_data_to uid t
  ⟨r, s1.1 ++ s2.1 ++ s3.1 ++ s4.1, s1.2 || s2.2 || s3.2 || s4.2⟩

/-- `Room.set_active` for a single seat argument:
`for i in range(len(self.seats)): self.player_active[i] = False`
followed by `self.player_active[seat] = True`. -/
def setActiveOne (seatCount : Nat) (act : List Bool) (seat : Int) : Option (List Bool) :=
  if seatCount ≤ act.length then
    pySetChk (List.replicate seatCount false ++ act.drop seatCount) seat true
  else none

/-- The broadcasting tail of `Room.place_dog`. -/
def Room.place_dog_finish (r : Room) (firstSends : List Send) : Eff :=
  let b1 := r.broadcast_data "game.status"
  let b2 :=
    match r.last_message with
    | none => (([] : List Send), true)
    | some t => r.broadcast_data t
  ⟨r, firstSends ++ b1.1 ++ b2.1, b1.2 || b2.2⟩

/-- `Room.place_dog` (body after the guards). -/
def Room.place_dog (r : Room) (uid : Nat) (me : UserD) (position : Int) : Eff :=
  match r.player_dogs with
  | none => ⟨r, [], true⟩
  | some dogs =>
    match pySetChk dogs me.seat position with
    | none => ⟨r, [], true⟩
    | some dogs1 =>
      let r1 := { r with player_dogs := some dogs1 }
      let s1 := r1.send_data_to uid "dog.place"
      match r.player_tiles with
      | none => ⟨r1, s1.1, true⟩
      | some tiles =>
        match pySetChk tiles me.seat (List.replicate 5 none) with
        | none => ⟨r1, s1.1, true⟩
        | some tiles1 =>
          let r2 := { r1 with player_tiles := some tiles1 }
          match r.player_active with
          | none => ⟨r2, s1.1, true⟩
          | some act =>
            match pySetChk act me.seat false with
            | none => ⟨r2, s1.1, true⟩
            | some act1 =>
              let r3 := { r2 with player_active := some act1 }
              if act1.any id then r3.place_dog_finish s1.1
              else
                let r4 := { r3 with last_message := some "player.act" }
                match r.leader with
                | none => ⟨r4, s1.1, true⟩
                | some l =>
                  match lookupU r.users l with
                  | none => ⟨r4, s1.1, true⟩
                  | some dl =>
                    match setActiveOne r.seats.length act1 dl.seat with
                    | none => ⟨r4, s1.1, true⟩
                    | some act3 =>
                      let r5 := { r4 with player_active := some act3 }
                      r5.place_dog_finish s1.1

/-- The guard chain wrapped around each handler, by inbound type:
`some true` proceed, `some false` silent abort, `none` exception inside
a guard.  Nested silent guards (`check_operator` outside
`check_gaming`) are collapsed into one conjunction, which produces the
same `Eff`. -/
def guardCheck (r : Room) (uid : Nat) (me : UserD) (t : String) : Option Bool :=
  if t = "hall.init" then some (!r.gaming)
  else if t = "user.take_seat" then some (!r.gaming)
  else if t = "room.remove_seat" then some (decide (r.operator = some uid) && !r.gaming)
  else if t = "room.remove_player" then some (!r.gaming)
  else if t = "room.add_seat" then some (decide (r.operator = some uid) && !r.gaming)
  else if t = "player.take_operator" then some (!decide (r.operator = some uid) && !r.gaming)
  else if t = "game.change_settings" then some (decide (r.operator = some uid) && !r.gaming)
  else if t = "game.start" then some (decide (r.operator = some uid) && !r.gaming)
  else if t = "board.init" then some r.gaming
  else if t = "dog.place" then
    if me.is_player then
      match r.player_active with
      | none => none
      | some act =>
        match pyIdx act me.seat with
        | none => none
        | some b => some (b && r.gaming)
    else some false
  else some false

/-- Run a handler body behind its guard chain.  Handlers are only ever
invoked with a `User` object obtained from `register_user`, i.e. one
stored in `users`; for an unknown key the invocation is modelled as a
no-op. -/
def handlerExec (r : Room) (uid : Nat) (t : String) (body : UserD → Eff) : Eff :=
  match lookupU r.users uid with
  | none => ⟨r, [], false⟩
  | some me =>
    match guardCheck r uid me t with
    | none => ⟨r, [], true⟩
    | some false => ⟨r, [], false⟩
    | some true => body me

/-- One externally triggered operation on a room: a registration event
or a dispatched handler invocation with well-typed arguments. -/
inductive Act where
  | register (uid : Nat) (live : Bool)
  | unregister (uid : Nat)
  | hallInit (uid : Nat)
  | takeSeat (uid : Nat) (seat : Int) (nickname : String)
  | removeSeat (uid : Nat) (seat : Int)
  | removePlayer (uid : Nat) (seat : Int)
  | addSeat (uid : Nat)
  | takeOperator (uid : Nat)
  | changeSettings (uid : Nat) (quick : Bool)
  | startGame (uid : Nat)
  | boardInit (uid : Nat)
  | placeDog (uid : Nat) (position : Int)
deriving DecidableEq, Repr

/-- Execute one operation. -/
def execAct (r : Room) (a : Act) : Eff :=
  match a with
  | .register uid live => r.register_user uid live
  | .unregister uid => r.unregister_user uid
  | .hallInit uid => handlerExec r uid "hall.init" (fun me => r.hall_init uid me)
  | .takeSeat uid seat nick =>
    handlerExec r uid "user.take_seat" (fun me => r.take_seat uid me seat nick)
  | .removeSeat uid seat =>
    handlerExec r uid "room.remove_seat" (fun me => r.remove_seat uid me seat)
  | .removePlayer uid seat =>
    handlerExec r uid "room.remove_player" (fun me => r.remove_player uid me seat)
  | .addSeat uid => handlerExec r uid "room.add_seat" (fun me => r.add_seat uid me)
  | .takeOperator uid =>
    handlerExec r uid "player.take_operator" (fun me => r.take_operator uid me)
  | .changeSettings uid quick =>
    handlerExec r uid "game.change_settings" (fun me => r.change_settings uid me quick)
  | .startGame uid => handlerExec r uid "game.start" (fun me => r.start_game uid me)
  | .boardInit uid => handlerExec r uid "board.init" (fun me => r.board_init uid me)
  | .placeDog uid pos =>
    handlerExec r uid "dog.place" (fun me => r.place_dog uid me pos)

/-- The state after one operation. -/
def stepA (r : Room) (a : Act) : Room :=
  (execAct r a).room

/-- The state of a fresh `n`-seat room after a list of operations. -/
def runFrom (n : Nat) (acts : List Act) : Room :=
  acts.foldl stepA (Room.init n)

/-- All frames transmitted while a fresh `n`-seat room executes a list
of operations. -/
def traceFrom (n : Nat) (acts : List Act) : List Send :=
  (acts.foldl (fun p a => ((execAct p.1 a).room, p.2 ++ (execAct p.1 a).sends))
    (Room.init n, ([] : List Send))).2

/-- The required-field schema each handler declares through its
annotated parameters (`make_handler`). -/
def schemaOf (t : String) : Option (List (String × PyTy)) :=
  if t = "hall.init" then some []
  else if t = "user.take_seat" then some [("seat", .int), ("nickname", .str)]
  else if t = "room.remove_seat" then some [("seat", .int)]
  else if t = "room.remove_player" then some [("seat", .int)]
  else if t = "room.add_seat" then some []
  else if t = "player.take_operator" then some []
  else if t = "game.change_settings" then some [("quick", .bool)]
  else if t = "game.start" then some []
  else if t = "board.init" then some []
  else if t = "dog.place" then some [("position", .int)]
  else none

/-- Field lookup in an inbound frame. -/
def lookupF (frame : List (String × PyV)) (k : String) : Option PyV :=
  match frame with
  | [] => none
  | (k', v) :: rest => if k' = k then some v else lookupF rest k

/-- `make_handler`'s parameter collection: every declared field must be
present and pass `isinstance`; the first failure aborts with `none`
before the body is entered. -/
def extractParams (schema : List (String × PyTy)) (frame : List (String × PyV)) :
    Option (List (String × PyV)) :=
  match schema with
  | [] => some []
  | (n, ty) :: rest =>
    match lookupF frame n with
    | none => none
    | some v =>
      if isinst v ty then (extractParams rest frame).map (fun l => (n, v) :: l)
      else none

/-- Numeric value of a validated `int` field (`True`/`False` count as
`1`/`0`, as in Python). -/
def PyV.asInt : PyV → Int
  | .vint n => n
  | .vbool b => if b then 1 else 0
  | _ => 0

/-- Value of a validated `bool` field. -/
def PyV.asBool : PyV → Bool
  | .vbool b => b
  | _ => false

/-- Value of a validated `str` field. -/
def PyV.asStr : PyV → String
  | .vstr s => s
  | _ => ""

/-- Fetch a validated field from the collected parameters. -/
def argV (args : List (String × PyV)) (k : String) : PyV :=
  (lookupF args k).getD .vother

/-- Dispatch a validated parameter list to the handler body. -/
def bodyFor (r : Room) (uid : Nat) (me : UserD) (t : String)
    (args : List (String × PyV)) : Eff :=
  if t = "hall.init" then r.hall_init uid me
  else if t = "user.take_seat" then
    r.take_seat uid me (argV args "seat").asInt (argV args "nickname").asStr
  else if t = "room.remove_seat" then r.remove_seat uid me (argV args "seat").asInt
  else if t = "room.remove_player" then r.remove_player uid me (argV args "seat").asInt
  else if t = "room.add_seat" then r.add_seat uid me
  else if t = "player.take_operator" then r.take_operator uid me
  else if t = "game.change_settings" then r.change_settings uid me (argV args "quick").asBool
  else if t = "game.start" then r.start_game uid me
  else if t = "board.init" then r.board_init uid me
  else if t = "dog.place" then r.place_dog uid me (argV args "position").asInt
  else ⟨r, [], false⟩

/-- `Room.handle_data`: look up the handler for the inbound type (an
unknown type is only logged), run its guard chain, then
`make_handler`'s field validation, then the body. -/
def dispatch (r : Room) (uid : Nat) (t : String) (frame : List (String × PyV)) : Eff :=
  match schemaOf t with
  | none => ⟨r, [], false⟩
  | some schema =>
    handlerExec r uid t (fun me =>
      match extractParams schema frame with
      | none => ⟨r, [], false⟩
      | some args => bodyFor r uid me t args)

/-! ### Lookup lemmas for the user table -/

theorem lookupU_update (l : List (Nat × UserD)) (k k' : Nat) (f : UserD → UserD) :
    lookupU (updateU l k f) k' =
      if k' = k then (lookupU l k').map f else lookupU l k' := by
  induction l with
  | nil => by_cases hk : k' = k <;> simp [lookupU, updateU, hk]
  | cons hd tl ih =>
    obtain ⟨k0, d⟩ := hd
    by_cases h0 : k0 = k'
    · subst h0
      by_cases hk : k0 = k
      · subst hk; simp [updateU, lookupU]
      · simp [updateU, lookupU, hk]
    · by_cases hk : k' = k
      · subst hk; simp [updateU, lookupU, h0, ih]
      · simp [updateU, lookupU, h0, hk, ih]

theorem lookupU_erase (l : List (Nat × UserD)) (k k' : Nat) :
    lookupU (eraseU l k) k' = if k' = k then none else lookupU l k' := by
  induction l with
  | nil => by_cases hk : k' = k <;> simp [lookupU, eraseU, hk]
  | cons hd tl ih =>
    obtain ⟨k0, d⟩ := hd
    by_cases hk0 : k0 = k
    · subst hk0
      by_cases h0 : k0 = k'
      · subst h0; simp [eraseU, lookupU, ih]
      · simp [eraseU, lookupU, h0, ih]
    · by_cases h0 : k0 = k'
      · subst h0; simp [eraseU, lookupU, hk0]
      · simp [eraseU, lookupU, hk0, h0, ih]

theorem lookupU_append_single (l : List (Nat × UserD)) (u k : Nat) (d : UserD) :
    lookupU (l ++ [(u, d)]) k =
      match lookupU l k with
      | some x => some x
      | none => if u = k then some d else none := by
  induction l with
  | nil => simp [lookupU]
  | cons hd tl ih =>
    obtain ⟨k0, d0⟩ := hd
    simp only [List.cons_append, lookupU]
    by_cases h0 : k0 = k <;> simp [h0, ih]

/-- `get?` after removing index `k`. -/
theorem get?_eraseIdx (l : List α) (k i : Nat) :
    (l.eraseIdx k).get? i = if i < k then l.get? i else l.get? (i + 1) := by
  induction l generalizing k i with
  | nil => simp [List.eraseIdx]
  | cons a tl ih =>
    cases k with
    | zero => simp [List.eraseIdx]
    | succ k' =>
      cases i with
      | zero => simp [List.eraseIdx]
      | succ i' =>
        simp only [List.eraseIdx, List.get?]
        rw [ih]
        by_cases h : i' < k' <;> simp [h, Nat.succ_lt_succ_iff]


/-! ### The data-model invariants -/

/-- Every occupied slot back-references a stored user whose `seat`
field is that slot's index. -/
def SlotToUser (r : Room) : Prop :=
  ∀ i u, r.seats.get? i = some (some u) →
    ∃ d, lookupU r.users u = some d ∧ d.seat = (i : Int)

/-- Every stored user with a non-negative `seat` occupies exactly that
slot. -/
def UserToSlot (r : Room) : Prop :=
  ∀ u d, lookupU r.users u = some d → 0 ≤ d.seat →
    r.seats.get? d.seat.toNat = some (some u)

/-- The seat/user correspondence invariant. -/
def Inv1 (r : Room) : Prop := SlotToUser r ∧ UserToSlot r

/-- The bijection property exactly as the specification states it:
each user is referenced by at most one slot, and a user is referenced
by slot `i` exactly when its stored seat index is `i`. -/
def SeatBijection (r : Room) : Prop :=
  (∀ i j u, r.seats.get? i = some (some u) → r.seats.get? j = some (some u) → i = j) ∧
  (∀ i u, r.seats.get? i = some (some u) →
    ∃ d, lookupU r.users u = some d ∧ d.seat = (i : Int)) ∧
  (∀ u d, lookupU r.users u = some d → 0 ≤ d.seat →
    r.seats.get? d.seat.toNat = some (some u))

theorem seatBijection_of_inv1 {r : Room} (h : Inv1 r) : SeatBijection r := by
  refine ⟨?_, h.1, h.2⟩
  intro i j u hi hj
  obtain ⟨d, hd, hdi⟩ := h.1 i u hi
  obtain ⟨d', hd', hdj⟩ := h.1 j u hj
  rw [hd] at hd'
  cases hd'
  omega

/-- A non-null operator references a stored user that is seated. -/
def OperatorSeated (r : Room) : Prop :=
  ∀ u, r.operator = some u → ∃ d, lookupU r.users u = some d ∧ 0 ≤ d.seat

/-- Every stored order is bounded by the issuing counter. -/
def OrdBound (r : Room) : Prop :=
  ∀ u d, lookupU r.users u = some d → d.order ≤ r.order_issuer

/-- The combined invariant. -/
def RoomInv (r : Room) : Prop := Inv1 r ∧ OperatorSeated r ∧ OrdBound r

/-- A take-seat action whose seat argument is non-negative (any other
action is unrestricted). -/
def SafeActB : Act → Bool
  | .takeSeat _ seat _ => decide (0 ≤ seat)
  | _ => true

/-- The acting user holds a seat. -/
def seatedB (r : Room) (uid : Nat) : Bool :=
  match lookupU r.users uid with
  | some d => d.is_player
  | none => false

/-- A take-operator action invoked by a seated user (any other action
is unrestricted). -/
def TakeOpOKB (r : Room) : Act → Bool
  | .takeOperator uid => seatedB r uid
  | _ => true

/-! ### Claims exactly as stated -/

/-- C1 as stated: the bijection holds after every operation sequence. -/
def C1Stated : Prop := ∀ n acts, SeatBijection (runFrom n acts)

/-- C2 as stated: a non-null operator is always seated. -/
def C2Stated : Prop := ∀ n acts, OperatorSeated (runFrom n acts)

/-- C6 as stated: a non-zero `order`, once assigned, is never changed
by any later operation. -/
def C6Stated : Prop :=
  ∀ r a uid d d', lookupU r.users uid = some d → d.order ≠ 0 →
    lookupU ((execAct r a).room).users uid = some d' → d'.order = d.order

/-- C8 as stated (the part its counterexample refutes): in a Waiting
room whose seats are all occupied, `start_game` called by the operator
broadcasts to every online member. -/
def C8Stated : Prop :=
  ∀ r uid, r.gaming = false → r.operator = some uid →
    (∀ slot ∈ r.seats, slot ≠ none) →
    ∀ u d, lookupU r.users u = some d → d.is_online = true →
      ∃ f, (u, f) ∈ (execAct r (.startGame uid)).sends

/-- Modelled from the spec, §6: the outbound snapshot types and their
field sets as the specification lists them
(`room.stage{stage}`, `seat.status{status}`, `game.settings{quick_game}`,
`game.status{start}`, `game.scores{scores}`, `user.init{nickname}`). -/
def specFrameOkB (s : Send) : Bool :=
  match s.2 with
  | ("type", .js t) :: rest =>
    if t = "room.stage" then decide (rest.map Prod.fst = ["stage"])
    else if t = "seat.status" then decide (rest.map Prod.fst = ["status"])
    else if t = "game.settings" then decide (rest.map Prod.fst = ["quick_game"])
    else if t = "game.status" then decide (rest.map Prod.fst = ["start"])
    else if t = "game.scores" then decide (rest.map Prod.fst = ["scores"])
    else if t = "user.init" then decide (rest.map Prod.fst = ["nickname"])
    else false
  | _ => false

/-- C9 as stated: every transmitted frame matches §6. -/
def C9Stated : Prop := ∀ n acts s, s ∈ traceFrom n acts → specFrameOkB s = true

/-! ### Concrete refutations and failing-input evaluations -/

/-- C1: the claim as stated is false.  In a fresh 2-seat room, the
sequence `register(0)`, `take_seat(0, -2)`, `take_seat(0, 1)` leaves
user 0 referenced by both slot 0 and slot 1 (Python interprets the
negative seat argument as an index from the back), so the
occupied-seats-to-users mapping is not a bijection. -/
theorem c1_counterexample : ¬ C1Stated := by
  intro h
  have hbij := (h 2 [.register 0 true, .takeSeat 0 (-2) "a", .takeSeat 0 1 "b"]).1
  have h0 : (runFrom 2 [.register 0 true, .takeSeat 0 (-2) "a", .takeSeat 0 1 "b"]).seats.get? 0
      = some (some 0) := by decide
  have h1 : (runFrom 2 [.register 0 true, .takeSeat 0 (-2) "a", .takeSeat 0 1 "b"]).seats.get? 1
      = some (some 0) := by decide
  exact absurd (hbij 0 1 0 h0 h1) (by decide)

/-- C2: the claim as stated is false.  `take_operator` performs no
seatedness check, so after `register(0)`, `take_operator(0)` in a fresh
room the operator references user 0 whose seat index is `-1`. -/
theorem c2_counterexample : ¬ C2Stated := by
  intro h
  obtain ⟨d, hd, hseat⟩ := h 2 [.register 0 true, .takeOperator 0] 0 (by decide)
  have hl : lookupU (runFrom 2 [.register 0 true, .takeOperator 0]).users 0
      = some ⟨some true, -1, "", 0⟩ := by decide
  rw [hl] at hd
  cases hd
  exact absurd hseat (by decide)

/-- C6: the claim as stated is false.  `leave_seat` resets `order` to
0: after user 0 takes seat 0 (order 1), `remove_player(0)` changes the
assigned order. -/
theorem c6_counterexample : ¬ C6Stated := by
  intro h
  have := h (runFrom 2 [.register 0 true, .takeSeat 0 0 "a"]) (.removePlayer 0 0) 0
    ⟨some true, 0, "a", 1⟩ ⟨some true, -1, "a", 0⟩ (by decide) (by decide) (by decide)
  exact absurd this (by decide)

/-- C8: the claim as stated is false on the zero-seat corner.  In a
reachable Waiting room whose seat list is empty (operator claimed by an
unseated user, both seats removed — here a fresh 0-seat room), every
seat is vacuously occupied, yet `start_game` sets `gaming`, raises
`IndexError` at `players[0]` and broadcasts nothing. -/
theorem c8_counterexample : ¬ C8Stated := by
  intro h
  obtain ⟨f, hf⟩ := h (runFrom 0 [.register 0 true, .takeOperator 0]) 0 (by decide) (by decide)
    (by decide) 0 ⟨some true, -1, "", 0⟩ (by decide) (by decide)
  have hs : (execAct (runFrom 0 [.register 0 true, .takeOperator 0]) (.startGame 0)).sends
      = [] := rfl
  rw [hs] at hf
  exact absurd hf (List.not_mem_nil _)

/-- C9: the claim as stated is false.  The very first frame the code
sends is `room.status{gaming}`, a type/field set that does not appear
in §6 at all. -/
theorem c9_counterexample : ¬ C9Stated := by
  intro h
  have hmem : ((0 : Nat), [("type", JVal.js "room.status"), ("gaming", JVal.jb false)])
      ∈ traceFrom 2 [.register 0 true] := by
    have ht : traceFrom 2 [.register 0 true]
        = [(0, [("type", JVal.js "room.status"), ("gaming", JVal.jb false)])] := rfl
    rw [ht]
    exact List.mem_singleton.mpr rfl
  exact absurd (h 2 [.register 0 true] _ hmem) (by decide)

/-- C4: `take_seat` does not guard its seat argument.  From the
reachable state "fresh 2-seat room, user 0 registered", the frame
`user.take_seat{seat: 5}` raises `IndexError` instead of being silently
rejected, and `user.take_seat{seat: -2}` occupies slot 0 (the negative
index aliases an existing seat) instead of being rejected. -/
theorem c4_take_seat_unguarded :
    (execAct (runFrom 2 [.register 0 true]) (.takeSeat 0 5 "a")).exn = true ∧
    (execAct (runFrom 2 [.register 0 true]) (.takeSeat 0 (-2) "a")).room.seats
      = [some 0, none] := by
  exact ⟨by decide, by decide⟩

/-- C5: `take_seat(u, s)` when `u` already stores seat index `s` (and
occupies that slot) is a complete no-op: identical room state, no
frames transmitted, no exception — whatever the stage, because either
the `check_gaming` guard or the `me.seat != seat` test short-circuits
before any mutation or broadcast. -/
theorem c5_take_seat_self_noop (r : Room) (uid : Nat) (d : UserD) (s : Int) (nick : String)
    (hu : lookupU r.users uid = some d)
    (hocc : pyIdx r.seats s = some (some uid))
    (hseat : d.seat = s) :
    execAct r (.takeSeat uid s nick) = ⟨r, [], false⟩ := by
  have hg : guardCheck r uid d "user.take_seat" = some (!r.gaming) := rfl
  simp only [execAct, handlerExec, hu, hg]
  cases hgam : r.gaming with
  | false =>
    simp only [Bool.not_false]
    unfold Room.take_seat
    rw [if_pos hseat]
  | true => simp only [Bool.not_true]

/-- Witness for `c5_take_seat_self_noop` at a concrete reachable
room. -/
theorem c5_witness :
    execAct (runFrom 2 [.register 0 true, .takeSeat 0 0 "a"]) (.takeSeat 0 0 "b")
      = ⟨runFrom 2 [.register 0 true, .takeSeat 0 0 "a"], [], false⟩ :=
  c5_take_seat_self_noop _ 0 ⟨some true, 0, "a", 1⟩ 0 "b" (by decide) (by decide) (by decide)

/-! ### Field validation (C7) -/

/-- A frame satisfies a handler's declared schema: every required field
present with an `isinstance`-conforming value. -/
def frameOkB : List (String × PyTy) → List (String × PyV) → Bool
  | [], _ => true
  | (n, ty) :: rest, frame =>
    (match lookupF frame n with
     | some v => isinst v ty
     | none => false) && frameOkB rest frame

theorem extractParams_none_of_not_ok (schema : List (String × PyTy))
    (frame : List (String × PyV)) (h : frameOkB schema frame = false) :
    extractParams schema frame = none := by
  induction schema with
  | nil => simp [frameOkB] at h
  | cons hd tl ih =>
    obtain ⟨n, ty⟩ := hd
    simp only [frameOkB] at h
    simp only [extractParams]
    cases hl : lookupF frame n with
    | none => rfl
    | some v =>
      rw [hl] at h
      by_cases hv : isinst v ty = true
      · simp only [hv, Bool.true_and] at h
        rw [ih h]
        simp [hv]
      · simp only [Bool.not_eq_true] at hv
        simp [hv]

/-- C7: if any declared required field is missing or mistyped, the
whole dispatch leaves the room unchanged and transmits nothing — the
parameter dictionary is fully validated before the handler body runs,
and every guard failure or exception on the way is equally silent with
respect to state and output. -/
theorem c7_dispatch_all_or_nothing (r : Room) (uid : Nat) (t : String)
    (schema : List (String × PyTy)) (frame : List (String × PyV))
    (hs : schemaOf t = some schema) (hbad : frameOkB schema frame = false) :
    (dispatch r uid t frame).room = r ∧ (dispatch r uid t frame).sends = [] := by
  have hex := extractParams_none_of_not_ok schema frame hbad
  unfold dispatch handlerExec
  simp only [hs, hex]
  refine ⟨?_, ?_⟩ <;> (repeat' split) <;> rfl

/-- Witness for `c7_dispatch_all_or_nothing`: a `user.take_seat` frame
with the `nickname` field missing is dropped whole. -/
theorem c7_witness :
    (dispatch (runFrom 2 [.register 0 true]) 0 "user.take_seat" [("seat", .vint 1)]).room
        = runFrom 2 [.register 0 true] ∧
    (dispatch (runFrom 2 [.register 0 true]) 0 "user.take_seat" [("seat", .vint 1)]).sends
        = [] :=
  c7_dispatch_all_or_nothing _ 0 "user.take_seat" [("seat", .int), ("nickname", .str)]
    [("seat", .vint 1)] (by decide) (by decide)

/-! ### Offline users receive nothing (C10) -/

theorem send_data_to_mem {r : Room} {v : Nat} {t : String} {u : Nat} {f : Frame}
    (h : (u, f) ∈ (r.send_data_to v t).1) : u = v ∧ uOnline r.users v = true := by
  unfold Room.send_data_to at h
  split at h
  · exact absurd h (List.not_mem_nil _)
  · split at h
    · exact absurd h (List.not_mem_nil _)
    · rename_i payload hp d hu
      unfold UserD.send_data at h
      by_cases ho : d.is_online = true
      · rw [if_pos ho] at h
        rw [List.mem_singleton] at h
        cases h
        exact ⟨rfl, by simp [uOnline, hu, ho]⟩
      · simp only [Bool.not_eq_true] at ho
        rw [ho] at h
        simp at h

theorem mem_broadcast (r : Room) (t : String) (u : Nat) (f : Frame)
    (h : (u, f) ∈ (r.broadcast_data t).1) :
    ∃ p ∈ r.users, (u, f) ∈ (r.send_data_to p.1 t).1 := by
  unfold Room.broadcast_data at h
  revert h
  induction r.users with
  | nil => intro h; exact absurd h (List.not_mem_nil _)
  | cons hd tl ih =>
    intro h
    rw [List.foldr_cons] at h
    rcases List.mem_append.mp h with h1 | h2
    · exact ⟨hd, List.mem_cons_self _ _, h1⟩
    · obtain ⟨p, hp, hm⟩ := ih h2
      exact ⟨p, List.mem_cons_of_mem _ hp, hm⟩

/-- C10: a user without a live connection receives nothing.
`User.send_data` transmits nothing when the connection is absent or not
live; `send_data_to` therefore transmits nothing to such a user; and
every frame a broadcast actually delivers goes to a member whose
connection is live — ghosts receive nothing until they reconnect. -/
theorem c10_offline_silent :
    (∀ (d : UserD) (uid : Nat) (t : String) (payload : Frame),
      d.is_online = false → d.send_data uid t payload = []) ∧
    (∀ (r : Room) (uid : Nat) (t : String) (d : UserD),
      lookupU r.users uid = some d → d.is_online = false →
        (r.send_data_to uid t).1 = []) ∧
    (∀ (r : Room) (t : String) (u : Nat) (f : Frame),
      (u, f) ∈ (r.broadcast_data t).1 → uOnline r.users u = true) := by
  refine ⟨?_, ?_, ?_⟩
  · intro d uid t payload h
    simp [UserD.send_data, h]
  · intro r uid t d hu h
    unfold Room.send_data_to
    cases hp : r.payloadFor uid t with
    | none => rfl
    | some payload => rw [hu]; simp [UserD.send_data, h]
  · intro r t u f h
    obtain ⟨p, hp, hm⟩ := mem_broadcast r t u f h
    obtain ⟨rfl, ho⟩ := send_data_to_mem hm
    exact ho

/-- Witness for `c10_offline_silent`: a ghost (seated, websocket gone)
gets nothing from `send_data_to`. -/
theorem c10_witness :
    (Room.send_data_to
      { gaming := false, order_issuer := 1, users := [(0, ⟨none, 0, "a", 1⟩)],
        seats := [some 0, none], operator := some 0, quick_game := true,
        leader := none, last_message := none, doors_opened := none,
        player_active := none, player_scores := none, player_tiles := none,
        player_dogs := none } 0 "seat.status").1 = [] :=
  c10_offline_silent.2.1 _ 0 "seat.status" ⟨none, 0, "a", 1⟩ (by decide) (by decide)

/-! ### The succession scan -/

theorem occupantsOf_mem_iff (seats : List (Option Nat)) (u : Nat) :
    u ∈ occupantsOf seats ↔ ∃ i, seats.get? i = some (some u) := by
  unfold occupantsOf
  rw [List.mem_filterMap]
  constructor
  · rintro ⟨o, ho, rfl⟩
    obtain ⟨i, hi⟩ := List.mem_iff_get?.mp ho
    exact ⟨i, hi⟩
  · rintro ⟨i, hi⟩
    exact ⟨some u, List.mem_iff_get?.mpr ⟨i, hi⟩, rfl⟩

theorem occupantsOf_cons_some (p : Nat) (rest : List (Option Nat)) :
    occupantsOf (some p :: rest) = p :: occupantsOf rest := by
  simp [occupantsOf]

theorem occupantsOf_cons_none (rest : List (Option Nat)) :
    occupantsOf (none :: rest) = occupantsOf rest := by
  simp [occupantsOf]

theorem candFold_eq_none (us : List (Nat × UserD)) :
    ∀ (seats : List (Option Nat)) (acc : Option Nat),
      seats.foldl (candStep us) acc = none →
      acc = none ∧ ∀ q ∈ occupantsOf seats, uOnline us q = false := by
  intro seats
  induction seats with
  | nil =>
    intro acc h
    exact ⟨h, by simp [occupantsOf]⟩
  | cons slot rest ih =>
    intro acc h
    rw [List.foldl_cons] at h
    obtain ⟨hacc, hrest⟩ := ih _ h
    cases slot with
    | none =>
      refine ⟨hacc, ?_⟩
      intro q hq
      exact hrest q (by simpa [occupantsOf] using hq)
    | some p =>
      by_cases hon : uOnline us p = true
      · exfalso
        cases acc with
        | none => simp [candStep, hon] at hacc
        | some c =>
          rw [show candStep us (some c) (some p)
              = if uOrder us p < uOrder us c then some p else some c
            from by simp [candStep, hon]] at hacc
          by_cases hlt : uOrder us p < uOrder us c
          · rw [if_pos hlt] at hacc; exact Option.noConfusion hacc
          · rw [if_neg hlt] at hacc; exact Option.noConfusion hacc
      · have hon' : uOnline us p = false := by simpa using hon
        have hstep : candStep us acc (some p) = acc := by simp [candStep, hon']
        rw [hstep] at hacc
        refine ⟨hacc, ?_⟩
        intro q hq
        rcases (by simpa [occupantsOf] using hq : q = p ∨ q ∈ occupantsOf rest) with rfl | hq'
        · exact hon'
        · exact hrest q hq'

theorem candFold_all_offline (us : List (Nat × UserD)) :
    ∀ (seats : List (Option Nat)) (acc : Option Nat),
      (∀ q ∈ occupantsOf seats, uOnline us q = false) →
      seats.foldl (candStep us) acc = acc := by
  intro seats
  induction seats with
  | nil => intro acc _; rfl
  | cons slot rest ih =>
    intro acc hoff
    rw [List.foldl_cons]
    cases slot with
    | none =>
      exact ih acc (fun q hq => hoff q (by simpa [occupantsOf] using hq))
    | some p =>
      have hp : uOnline us p = false := hoff p (by simp [occupantsOf])
      have hstep : candStep us acc (some p) = acc := by simp [candStep, hp]
      rw [hstep]
      exact ih acc (fun q hq => hoff q (by simp [occupantsOf]; right; simpa [occupantsOf] using hq))

theorem candFold_eq_some (us : List (Nat × UserD)) :
    ∀ (seats : List (Option Nat)) (acc : Option Nat) (c : Nat),
      seats.foldl (candStep us) acc = some c →
      (acc = some c ∨ (c ∈ occupantsOf seats ∧ uOnline us c = true)) ∧
      (∀ q ∈ occupantsOf seats, uOnline us q = true → uOrder us c ≤ uOrder us q) ∧
      (∀ a, acc = some a → uOrder us c ≤ uOrder us a) := by
  intro seats
  induction seats with
  | nil =>
    intro acc c h
    simp only [List.foldl_nil] at h
    refine ⟨Or.inl h, by simp [occupantsOf], ?_⟩
    intro a ha
    rw [h] at ha
    cases ha
    exact Nat.le_refl _
  | cons slot rest ih =>
    intro acc c h
    rw [List.foldl_cons] at h
    obtain ⟨hmem, hmin, hacc⟩ := ih _ _ h
    cases slot with
    | none =>
      have hstep : candStep us acc none = acc := rfl
      rw [hstep] at hmem hacc
      refine ⟨?_, ?_, hacc⟩
      · rcases hmem with h1 | h2
        · exact Or.inl h1
        · exact Or.inr ⟨by rw [occupantsOf_cons_none]; exact h2.1, h2.2⟩
      · intro q hq hqon
        exact hmin q (by simpa [occupantsOf] using hq) hqon
    | some p =>
      by_cases hon : uOnline us p = true
      · cases acc with
        | none =>
          have hstep : candStep us none (some p) = some p := by simp [candStep, hon]
          rw [hstep] at hmem hacc
          refine ⟨?_, ?_, ?_⟩
          · rcases hmem with h1 | h2
            · cases h1
              exact Or.inr ⟨by simp [occupantsOf], hon⟩
            · exact Or.inr ⟨by rw [occupantsOf_cons_some]; exact List.mem_cons_of_mem _ h2.1, h2.2⟩
          · intro q hq hqon
            rcases (by simpa [occupantsOf] using hq : q = p ∨ q ∈ occupantsOf rest) with rfl | hq'
            · exact hacc q rfl
            · exact hmin q hq' hqon
          · intro a ha
            exact Option.noConfusion ha
        | some b =>
          by_cases hlt : uOrder us p < uOrder us b
          · have hstep : candStep us (some b) (some p) = some p := by
              simp [candStep, hon, hlt]
            rw [hstep] at hmem hacc
            refine ⟨?_, ?_, ?_⟩
            · rcases hmem with h1 | h2
              · cases h1
                exact Or.inr ⟨by simp [occupantsOf], hon⟩
              · exact Or.inr ⟨by rw [occupantsOf_cons_some]; exact List.mem_cons_of_mem _ h2.1, h2.2⟩
            · intro q hq hqon
              rcases (by simpa [occupantsOf] using hq : q = p ∨ q ∈ occupantsOf rest) with rfl | hq'
              · exact hacc q rfl
              · exact hmin q hq' hqon
            · intro a ha
              cases ha
              exact Nat.le_of_lt (Nat.lt_of_le_of_lt (hacc p rfl) hlt)
          · have hstep : candStep us (some b) (some p) = some b := by
              simp [candStep, hon, hlt]
            rw [hstep] at hmem hacc
            have hcb : uOrder us c ≤ uOrder us b := hacc b rfl
            refine ⟨?_, ?_, ?_⟩
            · rcases hmem with h1 | h2
              · exact Or.inl h1
              · exact Or.inr ⟨by rw [occupantsOf_cons_some]; exact List.mem_cons_of_mem _ h2.1, h2.2⟩
            · intro q hq hqon
              rcases (by simpa [occupantsOf] using hq : q = p ∨ q ∈ occupantsOf rest) with rfl | hq'
              · exact Nat.le_trans hcb (Nat.le_of_not_lt hlt)
              · exact hmin q hq' hqon
            · intro a ha
              cases ha
              exact hcb
      · have hon' : uOnline us p = false := by simpa using hon
        have hstep : candStep us acc (some p) = acc := by simp [candStep, hon']
        rw [hstep] at hmem hacc
        refine ⟨?_, ?_, hacc⟩
        · rcases hmem with h1 | h2
          · exact Or.inl h1
          · exact Or.inr ⟨by rw [occupantsOf_cons_some]; exact List.mem_cons_of_mem _ h2.1, h2.2⟩
        · intro q hq hqon
          rcases (by simpa [occupantsOf] using hq : q = p ∨ q ∈ occupantsOf rest) with rfl | hq'
          · exact absurd hqon (by simp [hon'])
          · exact hmin q hq' hqon

/-- `candFold` returns an online occupant of minimal order. -/
theorem candFold_spec (us : List (Nat × UserD)) (seats : List (Option Nat)) (c : Nat)
    (h : candFold us seats = some c) :
    c ∈ occupantsOf seats ∧ uOnline us c = true ∧
    ∀ q ∈ occupantsOf seats, uOnline us q = true → uOrder us c ≤ uOrder us q := by
  obtain ⟨hmem, hmin, _⟩ := candFold_eq_some us seats none c h
  rcases hmem with h1 | h2
  · exact Option.noConfusion h1
  · exact ⟨h2.1, h2.2, hmin⟩

/-- `candFold` returns `none` exactly when no occupant is online. -/
theorem candFold_none_iff (us : List (Nat × UserD)) (seats : List (Option Nat)) :
    candFold us seats = none ↔ ∀ q ∈ occupantsOf seats, uOnline us q = false := by
  constructor
  · intro h
    exact (candFold_eq_none us seats none h).2
  · intro h
    exact candFold_all_offline us seats none h

/-- Decidable check that `p` occupies no slot other than `k`. -/
def uniqueSlotB (seats : List (Option Nat)) (p : Nat) (k : Nat) : Bool :=
  (List.range seats.length).all
    (fun i => !(decide (seats.get? i = some (some p))) || decide (i = k))

theorem uniqueSlotB_spec {seats : List (Option Nat)} {p k : Nat}
    (h : uniqueSlotB seats p k = true) :
    ∀ i, seats.get? i = some (some p) → i = k := by
  intro i hi
  have hlt : i < seats.length := by
    rcases List.get?_eq_some.mp hi with ⟨hw, _⟩
    exact hw
  have := List.all_eq_true.mp h i (List.mem_range.mpr hlt)
  simp only [hi, decide_True, Bool.not_true, Bool.false_or, decide_eq_true_eq] at this
  exact this

theorem uOnline_update_ne (us : List (Nat × UserD)) (p q : Nat) (f : UserD → UserD)
    (h : q ≠ p) : uOnline (updateU us p f) q = uOnline us q := by
  unfold uOnline
  rw [lookupU_update, if_neg h]

theorem uOrder_update_ne (us : List (Nat × UserD)) (p q : Nat) (f : UserD → UserD)
    (h : q ≠ p) : uOrder (updateU us p f) q = uOrder us q := by
  unfold uOrder
  rw [lookupU_update, if_neg h]

/-- In the seat list with slot `k` cleared, no occupant is `p`,
provided `p` occupied no slot other than `k` before. -/
theorem not_mem_cleared {seats : List (Option Nat)} {p k q : Nat}
    (huniq : ∀ i, seats.get? i = some (some p) → i = k)
    (hq : q ∈ occupantsOf (seats.set k none)) : q ≠ p := by
  intro rfl_qp
  subst rfl_qp
  obtain ⟨i, hi⟩ := (occupantsOf_mem_iff _ _).mp hq
  by_cases hik : i = k
  · subst hik
    rw [List.get?_set_eq] at hi
    cases hget : seats.get? i with
    | none => rw [hget] at hi; exact Option.noConfusion hi
    | some o => rw [hget] at hi; simp at hi
  · rw [List.get?_set_ne _ _ (fun hh => hik hh.symm)] at hi
    exact hik (huniq i hi)

/-- C3: in a Waiting room, when `remove_player` vacates seat `s`
(resolved index `k`, occupant `p`), then: (self-leave by the operator)
the new operator is an online occupant of the remaining seats with
minimal `order` — none exactly when no remaining occupant is online —
and (eviction of a non-operator occupant by the operator) the operator
reference is unchanged. -/
theorem c3_remove_player_succession (r : Room) (uid p : Nat) (dme : UserD) (s : Int) (k : Nat)
    (hg : r.gaming = false)
    (hme : lookupU r.users uid = some dme)
    (hres : pyResolve r.seats.length s = some k)
    (hocc : r.seats.get? k = some (some p))
    (hop : r.operator = some uid)
    (huniq : uniqueSlotB r.seats p k = true) :
    (p = uid →
      (((execAct r (.removePlayer uid s)).room.operator = none ↔
         ∀ q ∈ occupantsOf (r.seats.set k none), uOnline r.users q = false) ∧
       (∀ c, (execAct r (.removePlayer uid s)).room.operator = some c →
         c ∈ occupantsOf (r.seats.set k none) ∧ uOnline r.users c = true ∧
         ∀ q ∈ occupantsOf (r.seats.set k none), uOnline r.users q = true →
           uOrder r.users c ≤ uOrder r.users q))) ∧
    (p ≠ uid → (execAct r (.removePlayer uid s)).room.operator = some uid) := by
  have huniq' := uniqueSlotB_spec huniq
  have hbody : execAct r (.removePlayer uid s) = r.remove_player uid dme s := by
    have hgd : guardCheck r uid dme "room.remove_player" = some (!r.gaming) := rfl
    simp only [execAct, handlerExec, hme, hgd, hg, Bool.not_false]
  constructor
  · intro hpu
    subst hpu
    have hexec : (execAct r (.removePlayer p s)).room.operator
        = candFold (updateU r.users p UserD.leave_seat) (r.seats.set k none) := by
      rw [hbody]
      unfold Room.remove_player
      simp only [hres, hocc, hop, decide_True, Bool.or_self, Bool.and_self, if_pos]
      rfl
    rw [hexec]
    set us1 := updateU r.users p UserD.leave_seat with hus1
    set seats1 := r.seats.set k none with hseats1
    constructor
    · constructor
      · intro hnone
        intro q hq
        have hqp : q ≠ p := not_mem_cleared huniq' hq
        have := (candFold_none_iff us1 seats1).mp hnone q hq
        rwa [hus1, uOnline_update_ne _ _ _ _ hqp] at this
      · intro hall
        apply (candFold_none_iff us1 seats1).mpr
        intro q hq
        have hqp : q ≠ p := not_mem_cleared huniq' hq
        rw [hus1, uOnline_update_ne _ _ _ _ hqp]
        exact hall q hq
    · intro c hc
      obtain ⟨hcm, hcon, hcmin⟩ := candFold_spec us1 seats1 c hc
      have hcp : c ≠ p := not_mem_cleared huniq' hcm
      rw [hus1, uOnline_update_ne _ _ _ _ hcp] at hcon
      refine ⟨hcm, hcon, ?_⟩
      intro q hq hqon
      have hqp : q ≠ p := not_mem_cleared huniq' hq
      have := hcmin q hq (by rw [hus1, uOnline_update_ne _ _ _ _ hqp]; exact hqon)
      rwa [hus1, uOrder_update_ne _ _ _ _ hcp, uOrder_update_ne _ _ _ _ hqp] at this
  · intro hpu
    rw [hbody]
    unfold Room.remove_player
    have h1 : decide (p = uid) = false := by simp [hpu]
    simp only [hres, hocc, h1, hop, decide_True, Bool.false_or, Bool.false_and, if_pos,
      Bool.true_eq_false]
    exact hop

/-- The spec's succession scenario: 3-seat room, operator A (order 1,
seat 0) with online B (order 2, seat 1) and C (order 3, seat 2). -/
def c3room : Room :=
  runFrom 3 [.register 10 true, .register 11 true, .register 12 true,
    .takeSeat 10 0 "A", .takeSeat 11 1 "B", .takeSeat 12 2 "C"]

/-- Witness for `c3_remove_player_succession`: when A self-leaves, the
new operator is B, and it is an online occupant of minimal order. -/
theorem c3_witness :
    (execAct c3room (.removePlayer 10 0)).room.operator = some 11 ∧
    (∀ c, (execAct c3room (.removePlayer 10 0)).room.operator = some c →
      c ∈ occupantsOf (c3room.seats.set 0 none) ∧
      uOnline c3room.users c = true ∧
      ∀ q ∈ occupantsOf (c3room.seats.set 0 none),
        uOnline c3room.users q = true →
          uOrder c3room.users c ≤ uOrder c3room.users q) := by
  refine ⟨by decide, ?_⟩
  exact ((c3_remove_player_succession c3room 10 10 ⟨some true, 0, "A", 1⟩ 0 0
    (by decide) (by decide) (by decide) (by decide) (by decide) (by decide)).1 rfl).2

/-! ### Which fields each handler body leaves untouched -/

theorem hall_init_frame (r : Room) (uid : Nat) (me : UserD) :
    (r.hall_init uid me).room.users = r.users ∧
    (r.hall_init uid me).room.seats = r.seats ∧
    (r.hall_init uid me).room.order_issuer = r.order_issuer ∧
    (r.hall_init uid me).room.gaming = r.gaming ∧
    ((r.hall_init uid me).room.operator = r.operator ∨
      ((r.hall_init uid me).room.operator = some uid ∧ me.is_player = true)) := by
  unfold Room.hall_init
  by_cases hp : me.is_player = true
  · rw [if_pos hp]
    by_cases hop : r.operator = none
    · rw [if_pos hop]
      exact ⟨rfl, rfl, rfl, rfl, Or.inr ⟨rfl, hp⟩⟩
    · rw [if_neg hop]
      exact ⟨rfl, rfl, rfl, rfl, Or.inl rfl⟩
  · simp only [Bool.not_eq_true] at hp
    rw [hp]
    exact ⟨rfl, rfl, rfl, rfl, Or.inl rfl⟩

theorem take_operator_frame (r : Room) (uid : Nat) (me : UserD) :
    (r.take_operator uid me).room.users = r.users ∧
    (r.take_operator uid me).room.seats = r.seats ∧
    (r.take_operator uid me).room.order_issuer = r.order_issuer ∧
    (r.take_operator uid me).room.gaming = r.gaming ∧
    ((r.take_operator uid me).room.operator = r.operator ∨
      (r.take_operator uid me).room.operator = some uid) := by
  simp only [Room.take_operator]
  repeat' split
  all_goals
    first
    | exact ⟨rfl, rfl, rfl, rfl, Or.inr rfl⟩
    | exact ⟨rfl, rfl, rfl, rfl, Or.inl rfl⟩

theorem change_settings_frame (r : Room) (uid : Nat) (me : UserD) (quick : Bool) :
    (r.change_settings uid me quick).room.users = r.users ∧
    (r.change_settings uid me quick).room.seats = r.seats ∧
    (r.change_settings uid me quick).room.order_issuer = r.order_issuer ∧
    (r.change_settings uid me quick).room.gaming = r.gaming ∧
    (r.change_settings uid me quick).room.operator = r.operator := by
  unfold Room.change_settings
  split <;> exact ⟨rfl, rfl, rfl, rfl, rfl⟩

theorem start_game_frame (r : Room) (uid : Nat) (me : UserD) :
    (r.start_game uid me).room.users = r.users ∧
    (r.start_game uid me).room.seats = r.seats ∧
    (r.start_game uid me).room.order_issuer = r.order_issuer ∧
    (r.start_game uid me).room.operator = r.operator := by
  unfold Room.start_game
  split
  · exact ⟨rfl, rfl, rfl, rfl⟩
  · split <;> exact ⟨rfl, rfl, rfl, rfl⟩

theorem board_init_room (r : Room) (uid : Nat) (me : UserD) :
    (r.board_init uid me).room = r := rfl

theorem place_dog_finish_room (r : Room) (fs : List Send) :
    (r.place_dog_finish fs).room = r := by
  unfold Room.place_dog_finish
  split <;> rfl

theorem place_dog_frame (r : Room) (uid : Nat) (me : UserD) (pos : Int) :
    (r.place_dog uid me pos).room.users = r.users ∧
    (r.place_dog uid me pos).room.seats = r.seats ∧
    (r.place_dog uid me pos).room.order_issuer = r.order_issuer ∧
    (r.place_dog uid me pos).room.gaming = r.gaming ∧
    (r.place_dog uid me pos).room.operator = r.operator := by
  unfold Room.place_dog
  repeat' split
  all_goals
    first
    | exact ⟨rfl, rfl, rfl, rfl, rfl⟩
    | (rw [place_dog_finish_room]; exact ⟨rfl, rfl, rfl, rfl, rfl⟩)

theorem add_seat_frame (r : Room) (uid : Nat) (me : UserD) :
    (r.add_seat uid me).room.users = r.users ∧
    (r.add_seat uid me).room.seats = r.seats ++ [none] ∧
    (r.add_seat uid me).room.order_issuer = r.order_issuer ∧
    (r.add_seat uid me).room.gaming = r.gaming ∧
    (r.add_seat uid me).room.operator = r.operator :=
  ⟨rfl, rfl, rfl, rfl, rfl⟩

theorem register_user_frame (r : Room) (uid : Nat) (live : Bool) :
    (r.register_user uid live).room.seats = r.seats ∧
    (r.register_user uid live).room.order_issuer = r.order_issuer ∧
    (r.register_user uid live).room.gaming = r.gaming ∧
    (r.register_user uid live).room.operator = r.operator ∧
    ((∃ d, lookupU r.users uid = some d ∧
        (r.register_user uid live).room.users
          = updateU r.users uid (fun x => { x with ws := some live })) ∨
     (lookupU r.users uid = none ∧
        (r.register_user uid live).room.users
          = r.users ++ [(uid, UserD.init (some live))])) := by
  unfold Room.register_user
  cases hu : lookupU r.users uid with
  | some d => exact ⟨rfl, rfl, rfl, rfl, Or.inl ⟨d, rfl, rfl⟩⟩
  | none => exact ⟨rfl, rfl, rfl, rfl, Or.inr ⟨rfl, rfl⟩⟩

theorem unregister_user_frame (r : Room) (uid : Nat) :
    (r.unregister_user uid).room.seats = r.seats ∧
    (r.unregister_user uid).room.order_issuer = r.order_issuer ∧
    (r.unregister_user uid).room.gaming = r.gaming ∧
    (r.unregister_user uid).room.operator = r.operator ∧
    ((r.unregister_user uid).room.users = r.users ∨
     (∃ d, lookupU r.users uid = some d ∧ d.is_player = true ∧
        (r.unregister_user uid).room.users
          = updateU r.users uid (fun x => { x with ws := none })) ∨
     (∃ d, lookupU r.users uid = some d ∧ d.is_player = false ∧
        (r.unregister_user uid).room.users = eraseU r.users uid)) := by
  unfold Room.unregister_user
  split
  next => exact ⟨rfl, rfl, rfl, rfl, Or.inl rfl⟩
  next d hu =>
    split
    next hp => exact ⟨rfl, rfl, rfl, rfl, Or.inr (Or.inl ⟨d, hu, hp, rfl⟩)⟩
    next hp =>
      have hp' : d.is_player = false := by simpa using hp
      exact ⟨rfl, rfl, rfl, rfl, Or.inr (Or.inr ⟨d, hu, hp', rfl⟩)⟩

/-! ### Preservation of the seat invariant -/

/-- The seat/user correspondence, stated over the parts. -/
def Inv1P (us : List (Nat × UserD)) (seats : List (Option Nat)) : Prop :=
  (∀ i u, seats.get? i = some (some u) →
    ∃ d, lookupU us u = some d ∧ d.seat = (i : Int)) ∧
  (∀ u d, lookupU us u = some d → 0 ≤ d.seat →
    seats.get? d.seat.toNat = some (some u))

theorem inv1_iff_inv1P (r : Room) : Inv1 r ↔ Inv1P r.users r.seats := Iff.rfl

/-- Under the invariant, a user occupies at most one slot. -/
theorem inv1P_unique {us : List (Nat × UserD)} {seats : List (Option Nat)}
    (h : Inv1P us seats) {i j : Nat} {u : Nat}
    (hi : seats.get? i = some (some u)) (hj : seats.get? j = some (some u)) : i = j := by
  obtain ⟨d, hd, hdi⟩ := h.1 i u hi
  obtain ⟨d', hd', hdj⟩ := h.1 j u hj
  rw [hd] at hd'
  cases hd'
  omega

theorem inv1P_update_seat_preserving {us : List (Nat × UserD)} {seats : List (Option Nat)}
    (h : Inv1P us seats) (k : Nat) (f : UserD → UserD)
    (hf : ∀ d, (f d).seat = d.seat) :
    Inv1P (updateU us k f) seats := by
  constructor
  · intro i u hi
    obtain ⟨d, hd, hdi⟩ := h.1 i u hi
    rw [lookupU_update]
    by_cases hk : u = k
    · subst hk
      exact ⟨f d, by rw [if_pos rfl, hd]; rfl, by rw [hf]; exact hdi⟩
    · exact ⟨d, by rw [if_neg hk]; exact hd, hdi⟩
  · intro u d' hd' hs
    rw [lookupU_update] at hd'
    by_cases hk : u = k
    · subst hk
      rw [if_pos rfl] at hd'
      cases hl : lookupU us u with
      | none => rw [hl] at hd'; exact Option.noConfusion hd'
      | some d =>
        rw [hl] at hd'
        cases hd'
        have hds : (f d).seat = d.seat := hf d
        rw [hds] at hs ⊢
        exact h.2 u d hl hs
    · rw [if_neg hk] at hd'
      exact h.2 u d' hd' hs

theorem inv1P_append_unseated {us : List (Nat × UserD)} {seats : List (Option Nat)}
    (h : Inv1P us seats) (k : Nat) (d0 : UserD)
    (hnew : lookupU us k = none) (hseat : d0.seat < 0) :
    Inv1P (us ++ [(k, d0)]) seats := by
  constructor
  · intro i u hi
    obtain ⟨d, hd, hdi⟩ := h.1 i u hi
    refine ⟨d, ?_, hdi⟩
    rw [lookupU_append_single, hd]
  · intro u d' hd' hs
    rw [lookupU_append_single] at hd'
    cases hl : lookupU us u with
    | some d =>
      rw [hl] at hd'
      cases hd'
      exact h.2 u d' hl hs
    | none =>
      rw [hl] at hd'
      by_cases hk : k = u
      · rw [if_pos hk] at hd'
        cases hd'
        omega
      · rw [if_neg hk] at hd'
        exact Option.noConfusion hd'

theorem inv1P_erase_unseated {us : List (Nat × UserD)} {seats : List (Option Nat)}
    (h : Inv1P us seats) (k : Nat) (dk : UserD)
    (hk : lookupU us k = some dk) (hseat : dk.seat < 0) :
    Inv1P (eraseU us k) seats := by
  constructor
  · intro i u hi
    obtain ⟨d, hd, hdi⟩ := h.1 i u hi
    have huk : u ≠ k := by
      intro hh
      subst hh
      rw [hk] at hd
      cases hd
      omega
    exact ⟨d, by rw [lookupU_erase, if_neg huk]; exact hd, hdi⟩
  · intro u d' hd' hs
    rw [lookupU_erase] at hd'
    by_cases huk : u = k
    · rw [if_pos huk] at hd'
      exact Option.noConfusion hd'
    · rw [if_neg huk] at hd'
      exact h.2 u d' hd' hs

theorem inv1P_append_seat {us : List (Nat × UserD)} {seats : List (Option Nat)}
    (h : Inv1P us seats) : Inv1P us (seats ++ [none]) := by
  constructor
  · intro i u hi
    rcases List.get?_eq_some.mp hi with ⟨hlt, _⟩
    rw [List.length_append] at hlt
    by_cases hi' : i < seats.length
    · rw [List.get?_append hi'] at hi
      exact h.1 i u hi
    · have : i = seats.length := by simp at hlt; omega
      subst this
      rw [List.get?_append_right (Nat.le_refl _)] at hi
      simp at hi
  · intro u d hd hs
    have := h.2 u d hd hs
    rcases List.get?_eq_some.mp this with ⟨hlt, _⟩
    rw [List.get?_append hlt]
    exact this

theorem pySetChk_eq_some {l : List α} {i : Int} (a : α)
    (h0 : 0 ≤ i) (hlt : i.toNat < l.length) :
    pySetChk l i a = some (l.set i.toNat a) := by
  unfold pySetChk pyResolve
  have hi : i < (l.length : Int) := by omega
  rw [if_pos h0, if_pos hi]
  rfl

theorem inv1P_take_fresh {us : List (Nat × UserD)} {seats : List (Option Nat)}
    (h : Inv1P us seats) (uid k : Nat) (me : UserD) (nick : String) (ord : Nat)
    (hme : lookupU us uid = some me) (hfresh : me.seat < 0)
    (hempty : seats.get? k = some none) :
    Inv1P (updateU us uid (fun d => d.take_seat_ord (k : Int) nick ord))
      (seats.set k (some uid)) := by
  constructor
  · intro i u hi
    by_cases hik : i = k
    · subst hik
      rw [List.get?_set_eq, hempty] at hi
      cases hi
      refine ⟨me.take_seat_ord (i : Int) nick ord, ?_, rfl⟩
      rw [lookupU_update, if_pos rfl, hme]
      rfl
    · rw [List.get?_set_ne _ _ (fun hh => hik hh.symm)] at hi
      obtain ⟨d, hd, hdi⟩ := h.1 i u hi
      have huid : u ≠ uid := by
        intro hh
        subst hh
        rw [hme] at hd
        cases hd
        omega
      exact ⟨d, by rw [lookupU_update, if_neg huid]; exact hd, hdi⟩
  · intro u d' hd' hs
    rw [lookupU_update] at hd'
    by_cases huid : u = uid
    · subst huid
      rw [if_pos rfl, hme] at hd'
      cases hd'
      have hk : ((k : Int)).toNat = k := by omega
      show (seats.set k (some u)).get? ((k : Int)).toNat = some (some u)
      rw [hk, List.get?_set_eq, hempty]
      rfl
    · rw [if_neg huid] at hd'
      have hbase := h.2 u d' hd' hs
      have hnk : d'.seat.toNat ≠ k := by
        intro hh
        rw [hh, hempty] at hbase
        simp at hbase
      rw [List.get?_set_ne _ _ (fun hh => hnk hh.symm)]
      exact hbase

theorem inv1P_take_move {us : List (Nat × UserD)} {seats : List (Option Nat)}
    (h : Inv1P us seats) (uid k : Nat) (me : UserD) (nick : String)
    (hme : lookupU us uid = some me) (hpl : 0 ≤ me.seat)
    (hempty : seats.get? k = some none) (hmk : me.seat.toNat ≠ k) :
    Inv1P (updateU us uid (fun d => d.take_seat_keep (k : Int) nick))
      ((seats.set k (some uid)).set me.seat.toNat none) := by
  have hocc : seats.get? me.seat.toNat = some (some uid) := h.2 uid me hme hpl
  constructor
  · intro i u hi
    by_cases him : i = me.seat.toNat
    · subst him
      rw [List.get?_set_eq] at hi
      cases hg : ((seats.set k (some uid)).get? me.seat.toNat) with
      | none => rw [hg] at hi; exact Option.noConfusion hi
      | some o =>
        rw [hg] at hi
        simp at hi
    · rw [List.get?_set_ne _ _ (fun hh => him hh.symm)] at hi
      by_cases hik : i = k
      · subst hik
        rw [List.get?_set_eq, hempty] at hi
        cases hi
        refine ⟨me.take_seat_keep (i : Int) nick, ?_, rfl⟩
        rw [lookupU_update, if_pos rfl, hme]
        rfl
      · rw [List.get?_set_ne _ _ (fun hh => hik hh.symm)] at hi
        obtain ⟨d, hd, hdi⟩ := h.1 i u hi
        have huid : u ≠ uid := by
          intro hh
          subst hh
          rw [hme] at hd
          cases hd
          omega
        exact ⟨d, by rw [lookupU_update, if_neg huid]; exact hd, hdi⟩
  · intro u d' hd' hs
    rw [lookupU_update] at hd'
    by_cases huid : u = uid
    · subst huid
      rw [if_pos rfl, hme] at hd'
      cases hd'
      have hk : ((k : Int)).toNat = k := by omega
      show (((seats.set k (some u)).set me.seat.toNat none).get? ((k : Int)).toNat)
        = some (some u)
      rw [hk, List.get?_set_ne _ _ hmk, List.get?_set_eq, hempty]
      rfl
    · rw [if_neg huid] at hd'
      have hbase := h.2 u d' hd' hs
      have hium : d'.seat.toNat ≠ me.seat.toNat := by
        intro hh
        rw [hh, hocc] at hbase
        cases hbase
        exact huid rfl
      have hik : d'.seat.toNat ≠ k := by
        intro hh
        rw [hh, hempty] at hbase
        simp at hbase
      rw [List.get?_set_ne _ _ (fun hh => hium hh.symm),
        List.get?_set_ne _ _ (fun hh => hik hh.symm)]
      exact hbase

theorem inv1P_clear_slot {us : List (Nat × UserD)} {seats : List (Option Nat)}
    (h : Inv1P us seats) (p k : Nat)
    (hocc : seats.get? k = some (some p)) :
    Inv1P (updateU us p UserD.leave_seat) (seats.set k none) := by
  obtain ⟨dp, hdp, hdpk⟩ := h.1 k p hocc
  constructor
  · intro i u hi
    by_cases hik : i = k
    · subst hik
      rw [List.get?_set_eq] at hi
      cases hg : seats.get? i with
      | none => rw [hg] at hi; exact Option.noConfusion hi
      | some o => rw [hg] at hi; simp at hi
    · rw [List.get?_set_ne _ _ (fun hh => hik hh.symm)] at hi
      obtain ⟨d, hd, hdi⟩ := h.1 i u hi
      have hup : u ≠ p := by
        intro hh
        subst hh
        rw [hdp] at hd
        cases hd
        omega
      exact ⟨d, by rw [lookupU_update, if_neg hup]; exact hd, hdi⟩
  · intro u d' hd' hs
    rw [lookupU_update] at hd'
    by_cases hup : u = p
    · subst hup
      rw [if_pos rfl, hdp] at hd'
      cases hd'
      simp [UserD.leave_seat] at hs
    · rw [if_neg hup] at hd'
      have hbase := h.2 u d' hd' hs
      have hnk : d'.seat.toNat ≠ k := by
        intro hh
        rw [hh, hocc] at hbase
        cases hbase
        exact hup rfl
      rw [List.get?_set_ne _ _ (fun hh => hnk hh.symm)]
      exact hbase

theorem reindexFrom_not_mem (u : Nat) :
    ∀ (seats : List (Option Nat)) (i : Nat) (us : List (Nat × UserD)),
      (∀ j, seats.get? j ≠ some (some u)) →
      lookupU (reindexFrom i seats us) u = lookupU us u := by
  intro seats
  induction seats with
  | nil => intro i us _; rfl
  | cons slot rest ih =>
    intro i us h
    cases slot with
    | none =>
      simp only [reindexFrom]
      exact ih (i + 1) us (fun j hj => h (j + 1) (by simpa using hj))
    | some p =>
      have hpu : p ≠ u := by
        intro hh
        subst hh
        exact h 0 rfl
      simp only [reindexFrom]
      rw [ih (i + 1) _ (fun j hj => h (j + 1) (by simpa using hj))]
      rw [lookupU_update, if_neg (fun hh => hpu hh.symm)]

theorem reindexFrom_unique (u : Nat) :
    ∀ (seats : List (Option Nat)) (i : Nat) (us : List (Nat × UserD)) (j : Nat),
      seats.get? j = some (some u) →
      (∀ j', seats.get? j' = some (some u) → j' = j) →
      lookupU (reindexFrom i seats us) u
        = (lookupU us u).map (fun d => { d with seat := ((i + j : Nat) : Int) }) := by
  intro seats
  induction seats with
  | nil => intro i us j hj _; simp at hj
  | cons slot rest ih =>
    intro i us j hj huniq
    cases slot with
    | none =>
      cases j with
      | zero => simp at hj
      | succ j' =>
        simp only [reindexFrom]
        rw [ih (i + 1) us j' (by simpa using hj)
          (fun j'' hj'' => by
            have := huniq (j'' + 1) (by simpa using hj'')
            omega)]
        have harith : i + 1 + j' = i + (j' + 1) := by omega
        rw [harith]
    | some p =>
      by_cases hpu : p = u
      · subst hpu
        have hj0 : j = 0 := (huniq 0 rfl).symm
        subst hj0
        simp only [reindexFrom]
        rw [reindexFrom_not_mem p rest (i + 1) _
          (fun j'' hj'' => by
            have := huniq (j'' + 1) (by simpa using hj'')
            omega)]
        rw [lookupU_update, if_pos rfl]
        have harith : i + 0 = i := by omega
        rw [harith]
      · cases j with
        | zero =>
          rw [show (some p :: rest).get? 0 = some (some p) from rfl] at hj
          cases hj
          exact absurd rfl hpu
        | succ j' =>
          simp only [reindexFrom]
          rw [ih (i + 1) _ j' (by simpa using hj)
            (fun j'' hj'' => by
              have := huniq (j'' + 1) (by simpa using hj'')
              omega)]
          rw [lookupU_update, if_neg (fun hh => hpu hh.symm)]
          have harith : i + 1 + j' = i + (j' + 1) := by omega
          rw [harith]

theorem inv1P_remove_seat {us : List (Nat × UserD)} {seats : List (Option Nat)}
    (h : Inv1P us seats) (k : Nat)
    (hempty : seats.get? k = some none) :
    Inv1P (reindexFrom 0 (seats.eraseIdx k) us) (seats.eraseIdx k) := by
  have hget : ∀ i, (seats.eraseIdx k).get? i
      = if i < k then seats.get? i else seats.get? (i + 1) := fun i => get?_eraseIdx _ _ _
  have horig : ∀ i u, (seats.eraseIdx k).get? i = some (some u) →
      seats.get? (if i < k then i else i + 1) = some (some u) := by
    intro i u hi
    rw [hget i] at hi
    by_cases hik : i < k
    · rwa [if_pos hik] at hi ⊢
    · rwa [if_neg hik] at hi ⊢
  have hinj : ∀ i j : Nat, (if i < k then i else i + 1) = (if j < k then j else j + 1) →
      i = j := by
    intro i j hij
    by_cases hi : i < k <;> by_cases hj : j < k <;>
      simp only [hi, hj, if_true, if_false, if_pos, if_neg] at hij <;> omega
  have huniq1 : ∀ i u, (seats.eraseIdx k).get? i = some (some u) →
      ∀ j, (seats.eraseIdx k).get? j = some (some u) → j = i := by
    intro i u hi j hj
    exact hinj j i (inv1P_unique h (horig j u hj) (horig i u hi))
  constructor
  · intro i u hi
    obtain ⟨d, hd, hdi⟩ := h.1 _ u (horig i u hi)
    rw [reindexFrom_unique u (seats.eraseIdx k) 0 us i hi (huniq1 i u hi), hd]
    refine ⟨{ d with seat := ((0 + i : Nat) : Int) }, rfl, ?_⟩
    simp
  · intro u d' hd' hs
    by_cases hcase : ∃ j, (seats.eraseIdx k).get? j = some (some u)
    · obtain ⟨j, hj⟩ := hcase
      rw [reindexFrom_unique u (seats.eraseIdx k) 0 us j hj (huniq1 j u hj)] at hd'
      cases hl : lookupU us u with
      | none => rw [hl] at hd'; exact Option.noConfusion hd'
      | some d =>
        rw [hl] at hd'
        cases hd'
        have : ((((0 + j : Nat) : Int)).toNat) = j := by omega
        rw [this]
        exact hj
    · rw [reindexFrom_not_mem u (seats.eraseIdx k) 0 us
        (fun j hj => hcase ⟨j, hj⟩)] at hd'
      have hbase := h.2 u d' hd' hs
      exfalso
      apply hcase
      have hmk : d'.seat.toNat ≠ k := by
        intro hh
        rw [hh, hempty] at hbase
        simp at hbase
      by_cases hlt : d'.seat.toNat < k
      · exact ⟨d'.seat.toNat, by rw [hget, if_pos hlt]; exact hbase⟩
      · refine ⟨d'.seat.toNat - 1, ?_⟩
        rw [hget, if_neg (by omega)]
        have : d'.seat.toNat - 1 + 1 = d'.seat.toNat := by omega
        rw [this]
        exact hbase

theorem handlerExec_room (r : Room) (uid : Nat) (t : String) (body : UserD → Eff) :
    (handlerExec r uid t body).room = r ∨
    ∃ me, lookupU r.users uid = some me ∧ guardCheck r uid me t = some true ∧
      handlerExec r uid t body = body me := by
  unfold handlerExec
  split
  · exact Or.inl rfl
  · rename_i me hu
    split
    · exact Or.inl rfl
    · exact Or.inl rfl
    · rename_i hg
      exact Or.inr ⟨me, hu, hg, rfl⟩

theorem inv1P_of_frame {r r' : Room} (hu : r'.users = r.users) (hs : r'.seats = r.seats)
    (h : Inv1P r.users r.seats) : Inv1P r'.users r'.seats := by
  rw [hu, hs]
  exact h

theorem withOpClaim_users (r1 : Room) (uid : Nat) :
    (Room.withOpClaim r1 uid).users = r1.users := by
  unfold Room.withOpClaim
  split <;> rfl

theorem withOpClaim_seats (r1 : Room) (uid : Nat) :
    (Room.withOpClaim r1 uid).seats = r1.seats := by
  unfold Room.withOpClaim
  split <;> rfl

theorem withOpClaim_gaming (r1 : Room) (uid : Nat) :
    (Room.withOpClaim r1 uid).gaming = r1.gaming := by
  unfold Room.withOpClaim
  split <;> rfl

theorem withOpClaim_order_issuer (r1 : Room) (uid : Nat) :
    (Room.withOpClaim r1 uid).order_issuer = r1.order_issuer := by
  unfold Room.withOpClaim
  split <;> rfl

theorem withOpClaim_operator (r1 : Room) (uid : Nat) :
    (Room.withOpClaim r1 uid).operator = r1.operator ∨
      (Room.withOpClaim r1 uid).operator = some uid := by
  unfold Room.withOpClaim
  split
  · exact Or.inr rfl
  · exact Or.inl rfl

theorem seatBroadcastEff_room (r2 : Room) :
    (Room.seatBroadcastEff r2).room = r2 := rfl

theorem take_claim_inv1 (r1 : Room) (uid : Nat) (h : Inv1P r1.users r1.seats) :
    Inv1P (Room.seatBroadcastEff (Room.withOpClaim r1 uid)).room.users
      (Room.seatBroadcastEff (Room.withOpClaim r1 uid)).room.seats := by
  rw [seatBroadcastEff_room, withOpClaim_users, withOpClaim_seats]
  exact h

theorem pyResolve_nonneg {len : Nat} {i : Int} {k : Nat}
    (h0 : 0 ≤ i) (h : pyResolve len i = some k) : (k : Int) = i ∧ k < len := by
  unfold pyResolve at h
  rw [if_pos h0] at h
  by_cases hlt : i < (len : Int)
  · rw [if_pos hlt] at h
    cases h
    constructor <;> omega
  · rw [if_neg hlt] at h
    exact Option.noConfusion h

theorem inv1_take_seat_body (r : Room) (uid : Nat) (me : UserD) (seat : Int) (nick : String)
    (h : Inv1P r.users r.seats) (hme : lookupU r.users uid = some me) (hsafe : 0 ≤ seat) :
    Inv1P (r.take_seat uid me seat nick).room.users (r.take_seat uid me seat nick).room.seats := by
  unfold Room.take_seat
  by_cases hms : me.seat = seat
  · rw [if_pos hms]
    exact h
  · rw [if_neg hms]
    split
    · exact h
    · rename_i k hres
      obtain ⟨hk, hklen⟩ := pyResolve_nonneg hsafe hres
      split
      · exact h
      · exact h
      · rename_i hsl
        split
        · rename_i hpl
          have hpl' : 0 ≤ me.seat := by simpa [UserD.is_player] using hpl
          have hmlt : me.seat.toNat < r.seats.length :=
            (List.get?_eq_some.mp (h.2 uid me hme hpl')).1
          have hset : pySetChk (r.seats.set k (some uid)) me.seat none
              = some ((r.seats.set k (some uid)).set me.seat.toNat none) := by
            apply pySetChk_eq_some _ hpl'
            simpa using hmlt
          have hmk : me.seat.toNat ≠ k := by
            intro hh
            apply hms
            omega
          have hmain := inv1P_take_move h uid k me nick hme hpl' hsl hmk
          rw [hk] at hmain
          split
          · rename_i heq
            rw [hset] at heq
            exact absurd heq (by simp)
          · rename_i seats2 heq
            rw [hset] at heq
            cases heq
            exact take_claim_inv1 _ uid hmain
        · rename_i hpl
          simp only [Bool.not_eq_true] at hpl
          have hfresh : me.seat < 0 := by
            simp only [UserD.is_player, decide_eq_false_iff_not] at hpl
            omega
          have hmain := inv1P_take_fresh h uid k me nick (r.order_issuer + 1) hme hfresh hsl
          rw [hk] at hmain
          exact take_claim_inv1 _ uid hmain

theorem inv1_remove_seat_body (r : Room) (uid : Nat) (me : UserD) (seat : Int)
    (h : Inv1P r.users r.seats) :
    Inv1P (r.remove_seat uid me seat).room.users (r.remove_seat uid me seat).room.seats := by
  unfold Room.remove_seat
  split
  · exact h
  · rename_i k hres
    split
    · exact h
    · exact h
    · rename_i hsl
      exact inv1P_remove_seat h k hsl

theorem inv1_remove_player_body (r : Room) (uid : Nat) (me : UserD) (seat : Int)
    (h : Inv1P r.users r.seats) :
    Inv1P (r.remove_player uid me seat).room.users
      (r.remove_player uid me seat).room.seats := by
  unfold Room.remove_player
  split
  · exact h
  · rename_i k hres
    split
    · exact h
    · exact h
    · rename_i p hsl
      split
      · rw [seatBroadcastEff_room]
        exact inv1P_clear_slot h p k hsl
      · exact h

theorem inv1_stepA (r : Room) (a : Act) (h : Inv1P r.users r.seats)
    (hsafe : SafeActB a = true) :
    Inv1P (stepA r a).users (stepA r a).seats := by
  cases a with
  | register uid live =>
    obtain ⟨hse, _, _, _, hus⟩ := register_user_frame r uid live
    show Inv1P (r.register_user uid live).room.users (r.register_user uid live).room.seats
    rw [hse]
    rcases hus with ⟨d, hd, hu⟩ | ⟨hd, hu⟩
    · rw [hu]
      exact inv1P_update_seat_preserving h uid _ (fun d => rfl)
    · rw [hu]
      exact inv1P_append_unseated h uid _ hd (by simp [UserD.init])
  | unregister uid =>
    obtain ⟨hse, _, _, _, hus⟩ := unregister_user_frame r uid
    show Inv1P (r.unregister_user uid).room.users (r.unregister_user uid).room.seats
    rw [hse]
    rcases hus with hu | ⟨d, hd, hp, hu⟩ | ⟨d, hd, hp, hu⟩
    · rw [hu]
      exact h
    · rw [hu]
      exact inv1P_update_seat_preserving h uid _ (fun d => rfl)
    · rw [hu]
      have hseat : d.seat < 0 := by
        simp only [UserD.is_player, decide_eq_false_iff_not] at hp
        omega
      exact inv1P_erase_unseated h uid d hd hseat
  | hallInit uid =>
    rcases handlerExec_room r uid "hall.init" (fun me => r.hall_init uid me)
      with habort | ⟨me, hme, hg, hbody⟩
    · show Inv1P (handlerExec r uid "hall.init" (fun me => r.hall_init uid me)).room.users
        (handlerExec r uid "hall.init" (fun me => r.hall_init uid me)).room.seats
      rw [habort]
      exact h
    · show Inv1P (handlerExec r uid "hall.init" (fun me => r.hall_init uid me)).room.users
        (handlerExec r uid "hall.init" (fun me => r.hall_init uid me)).room.seats
      rw [hbody]
      obtain ⟨hu, hs, _⟩ := hall_init_frame r uid me
      exact inv1P_of_frame hu hs h
  | takeSeat uid seat nick =>
    rcases handlerExec_room r uid "user.take_seat" (fun me => r.take_seat uid me seat nick)
      with habort | ⟨me, hme, hg, hbody⟩
    · show Inv1P (handlerExec r uid "user.take_seat"
          (fun me => r.take_seat uid me seat nick)).room.users
        (handlerExec r uid "user.take_seat"
          (fun me => r.take_seat uid me seat nick)).room.seats
      rw [habort]
      exact h
    · show Inv1P (handlerExec r uid "user.take_seat"
          (fun me => r.take_seat uid me seat nick)).room.users
        (handlerExec r uid "user.take_seat"
          (fun me => r.take_seat uid me seat nick)).room.seats
      rw [hbody]
      exact inv1_take_seat_body r uid me seat nick h hme (by simpa [SafeActB] using hsafe)
  | removeSeat uid seat =>
    rcases handlerExec_room r uid "room.remove_seat" (fun me => r.remove_seat uid me seat)
      with habort | ⟨me, hme, hg, hbody⟩
    · show Inv1P (handlerExec r uid "room.remove_seat"
          (fun me => r.remove_seat uid me seat)).room.users
        (handlerExec r uid "room.remove_seat"
          (fun me => r.remove_seat uid me seat)).room.seats
      rw [habort]
      exact h
    · show Inv1P (handlerExec r uid "room.remove_seat"
          (fun me => r.remove_seat uid me seat)).room.users
        (handlerExec r uid "room.remove_seat"
          (fun me => r.remove_seat uid me seat)).room.seats
      rw [hbody]
      exact inv1_remove_seat_body r uid me seat h
  | removePlayer uid seat =>
    rcases handlerExec_room r uid "room.remove_player" (fun me => r.remove_player uid me seat)
      with habort | ⟨me, hme, hg, hbody⟩
    · show Inv1P (handlerExec r uid "room.remove_player"
          (fun me => r.remove_player uid me seat)).room.users
        (handlerExec r uid "room.remove_player"
          (fun me => r.remove_player uid me seat)).room.seats
      rw [habort]
      exact h
    · show Inv1P (handlerExec r uid "room.remove_player"
          (fun me => r.remove_player uid me seat)).room.users
        (handlerExec r uid "room.remove_player"
          (fun me => r.remove_player uid me seat)).room.seats
      rw [hbody]
      exact inv1_remove_player_body r uid me seat h
  | addSeat uid =>
    rcases handlerExec_room r uid "room.add_seat" (fun me => r.add_seat uid me)
      with habort | ⟨me, hme, hg, hbody⟩
    · show Inv1P (handlerExec r uid "room.add_seat" (fun me => r.add_seat uid me)).room.users
        (handlerExec r uid "room.add_seat" (fun me => r.add_seat uid me)).room.seats
      rw [habort]
      exact h
    · show Inv1P (handlerExec r uid "room.add_seat" (fun me => r.add_seat uid me)).room.users
        (handlerExec r uid "room.add_seat" (fun me => r.add_seat uid me)).room.seats
      rw [hbody]
      obtain ⟨hu, hs, _⟩ := add_seat_frame r uid me
      rw [hu, hs]
      exact inv1P_append_seat h
  | takeOperator uid =>
    rcases handlerExec_room r uid "player.take_operator" (fun me => r.take_operator uid me)
      with habort | ⟨me, hme, hg, hbody⟩
    · show Inv1P (handlerExec r uid "player.take_operator"
          (fun me => r.take_operator uid me)).room.users
        (handlerExec r uid "player.take_operator"
          (fun me => r.take_operator uid me)).room.seats
      rw [habort]
      exact h
    · show Inv1P (handlerExec r uid "player.take_operator"
          (fun me => r.take_operator uid me)).room.users
        (handlerExec r uid "player.take_operator"
          (fun me => r.take_operator uid me)).room.seats
      rw [hbody]
      obtain ⟨hu, hs, _⟩ := take_operator_frame r uid me
      exact inv1P_of_frame hu hs h
  | changeSettings uid quick =>
    rcases handlerExec_room r uid "game.change_settings"
        (fun me => r.change_settings uid me quick)
      with habort | ⟨me, hme, hg, hbody⟩
    · show Inv1P (handlerExec r uid "game.change_settings"
          (fun me => r.change_settings uid me quick)).room.users
        (handlerExec r uid "game.change_settings"
          (fun me => r.change_settings uid me quick)).room.seats
      rw [habort]
      exact h
    · show Inv1P (handlerExec r uid "game.change_settings"
          (fun me => r.change_settings uid me quick)).room.users
        (handlerExec r uid "game.change_settings"
          (fun me => r.change_settings uid me quick)).room.seats
      rw [hbody]
      obtain ⟨hu, hs, _⟩ := change_settings_frame r uid me quick
      exact inv1P_of_frame hu hs h
  | startGame uid =>
    rcases handlerExec_room r uid "game.start" (fun me => r.start_game uid me)
      with habort | ⟨me, hme, hg, hbody⟩
    · show Inv1P (handlerExec r uid "game.start" (fun me => r.start_game uid me)).room.users
        (handlerExec r uid "game.start" (fun me => r.start_game uid me)).room.seats
      rw [habort]
      exact h
    · show Inv1P (handlerExec r uid "game.start" (fun me => r.start_game uid me)).room.users
        (handlerExec r uid "game.start" (fun me => r.start_game uid me)).room.seats
      rw [hbody]
      obtain ⟨hu, hs, _⟩ := start_game_frame r uid me
      exact inv1P_of_frame hu hs h
  | boardInit uid =>
    rcases handlerExec_room r uid "board.init" (fun me => r.board_init uid me)
      with habort | ⟨me, hme, hg, hbody⟩
    · show Inv1P (handlerExec r uid "board.init" (fun me => r.board_init uid me)).room.users
        (handlerExec r uid "board.init" (fun me => r.board_init uid me)).room.seats
      rw [habort]
      exact h
    · show Inv1P (handlerExec r uid "board.init" (fun me => r.board_init uid me)).room.users
        (handlerExec r uid "board.init" (fun me => r.board_init uid me)).room.seats
      rw [hbody, board_init_room]
      exact h
  | placeDog uid pos =>
    rcases handlerExec_room r uid "dog.place" (fun me => r.place_dog uid me pos)
      with habort | ⟨me, hme, hg, hbody⟩
    · show Inv1P (handlerExec r uid "dog.place" (fun me => r.place_dog uid me pos)).room.users
        (handlerExec r uid "dog.place" (fun me => r.place_dog uid me pos)).room.seats
      rw [habort]
      exact h
    · show Inv1P (handlerExec r uid "dog.place" (fun me => r.place_dog uid me pos)).room.users
        (handlerExec r uid "dog.place" (fun me => r.place_dog uid me pos)).room.seats
      rw [hbody]
      obtain ⟨hu, hs, _⟩ := place_dog_frame r uid me pos
      exact inv1P_of_frame hu hs h

/-! ### Preservation of the order bound -/

/-- Every stored order is bounded by `n`. -/
def OrdBoundP (us : List (Nat × UserD)) (n : Nat) : Prop :=
  ∀ u d, lookupU us u = some d → d.order ≤ n

theorem ordBoundP_update {us : List (Nat × UserD)} {n : Nat} (h : OrdBoundP us n)
    (k : Nat) (f : UserD → UserD) (hf : ∀ d, d.order ≤ n → (f d).order ≤ n) :
    OrdBoundP (updateU us k f) n := by
  intro u d' hd'
  rw [lookupU_update] at hd'
  by_cases hk : u = k
  · rw [if_pos hk] at hd'
    cases hl : lookupU us u with
    | none => rw [hl] at hd'; exact Option.noConfusion hd'
    | some d => rw [hl] at hd'; cases hd'; exact hf d (h u d hl)
  · rw [if_neg hk] at hd'
    exact h u d' hd'

theorem ordBoundP_mono {us : List (Nat × UserD)} {n m : Nat} (h : OrdBoundP us n)
    (hnm : n ≤ m) : OrdBoundP us m :=
  fun u d hd => Nat.le_trans (h u d hd) hnm

theorem ordBoundP_reindexFrom {n : Nat} :
    ∀ (seats : List (Option Nat)) (i : Nat) (us : List (Nat × UserD)),
      OrdBoundP us n → OrdBoundP (reindexFrom i seats us) n := by
  intro seats
  induction seats with
  | nil => intro i us h; exact h
  | cons slot rest ih =>
    intro i us h
    cases slot with
    | none => exact ih (i + 1) us h
    | some p => exact ih (i + 1) _ (ordBoundP_update h p _ (fun d hd => hd))

theorem ordBoundP_append {us : List (Nat × UserD)} {n : Nat} (h : OrdBoundP us n)
    (k : Nat) (d0 : UserD) (h0 : d0.order ≤ n) : OrdBoundP (us ++ [(k, d0)]) n := by
  intro u d hd
  rw [lookupU_append_single] at hd
  cases hl : lookupU us u with
  | some d1 => rw [hl] at hd; cases hd; exact h u _ hl
  | none =>
    rw [hl] at hd
    by_cases hk : k = u
    · rw [if_pos hk] at hd; cases hd; exact h0
    · rw [if_neg hk] at hd; exact Option.noConfusion hd

theorem ordBoundP_erase {us : List (Nat × UserD)} {n : Nat} (h : OrdBoundP us n)
    (k : Nat) : OrdBoundP (eraseU us k) n := by
  intro u d hd
  rw [lookupU_erase] at hd
  by_cases hk : u = k
  · rw [if_pos hk] at hd; exact Option.noConfusion hd
  · rw [if_neg hk] at hd; exact h u d hd

theorem ordBoundP_of_frame {r r' : Room} (hu : r'.users = r.users)
    (hn : r'.order_issuer = r.order_issuer) (h : OrdBoundP r.users r.order_issuer) :
    OrdBoundP r'.users r'.order_issuer := by
  rw [hu, hn]
  exact h

/-- Property transfer through a guarded handler invocation. -/
theorem stepA_handler_cases (r : Room) (uid : Nat) (t : String) (body : UserD → Eff)
    (P : Room → Prop) (hident : P r)
    (hbody : ∀ me, lookupU r.users uid = some me → guardCheck r uid me t = some true →
      P (body me).room) :
    P (handlerExec r uid t body).room := by
  rcases handlerExec_room r uid t body with habort | ⟨me, hme, hg, hb⟩
  · rw [habort]; exact hident
  · rw [hb]; exact hbody me hme hg

theorem ordBound_take_seat_body (r : Room) (uid : Nat) (me : UserD) (seat : Int)
    (nick : String) (h : OrdBoundP r.users r.order_issuer) :
    OrdBoundP (r.take_seat uid me seat nick).room.users
      (r.take_seat uid me seat nick).room.order_issuer := by
  unfold Room.take_seat
  by_cases hms : me.seat = seat
  · rw [if_pos hms]; exact h
  · rw [if_neg hms]
    split
    · exact h
    · rename_i k hres
      split
      · exact h
      · exact h
      · rename_i hsl
        split
        · split
          · exact h
          · rename_i seats2 heq
            rw [seatBroadcastEff_room, withOpClaim_users, withOpClaim_order_issuer]
            exact ordBoundP_update h uid _ (fun d hd => hd)
        · rw [seatBroadcastEff_room, withOpClaim_users, withOpClaim_order_issuer]
          exact ordBoundP_update (ordBoundP_mono h (Nat.le_succ _)) uid _
            (fun d hd => Nat.le_refl _)

theorem ordBound_stepA (r : Room) (a : Act) (h : OrdBoundP r.users r.order_issuer) :
    OrdBoundP (stepA r a).users (stepA r a).order_issuer := by
  cases a with
  | register uid live =>
    obtain ⟨_, hiss, _, _, hus⟩ := register_user_frame r uid live
    show OrdBoundP (r.register_user uid live).room.users
      (r.register_user uid live).room.order_issuer
    rw [hiss]
    rcases hus with ⟨d, hd, hu⟩ | ⟨hd, hu⟩
    · rw [hu]; exact ordBoundP_update h uid _ (fun d hd => hd)
    · rw [hu]; exact ordBoundP_append h uid _ (by simp [UserD.init])
  | unregister uid =>
    obtain ⟨_, hiss, _, _, hus⟩ := unregister_user_frame r uid
    show OrdBoundP (r.unregister_user uid).room.users
      (r.unregister_user uid).room.order_issuer
    rw [hiss]
    rcases hus with hu | ⟨d, hd, hp, hu⟩ | ⟨d, hd, hp, hu⟩
    · rw [hu]; exact h
    · rw [hu]; exact ordBoundP_update h uid _ (fun d hd => hd)
    · rw [hu]; exact ordBoundP_erase h uid
  | hallInit uid =>
    exact stepA_handler_cases r uid _ _
      (fun rm => OrdBoundP rm.users rm.order_issuer) h
      (fun me hme hg => by
        obtain ⟨hu, _, hiss, _⟩ := hall_init_frame r uid me
        exact ordBoundP_of_frame hu hiss h)
  | takeSeat uid seat nick =>
    exact stepA_handler_cases r uid _ _
      (fun rm => OrdBoundP rm.users rm.order_issuer) h
      (fun me hme hg => ordBound_take_seat_body r uid me seat nick h)
  | removeSeat uid seat =>
    exact stepA_handler_cases r uid _ _
      (fun rm => OrdBoundP rm.users rm.order_issuer) h
      (fun me hme hg => by
        unfold Room.remove_seat
        split
        · exact h
        · rename_i k hres
          split
          · exact h
          · exact h
          · rename_i hsl
            exact ordBoundP_reindexFrom _ 0 _ h)
  | removePlayer uid seat =>
    exact stepA_handler_cases r uid _ _
      (fun rm => OrdBoundP rm.users rm.order_issuer) h
      (fun me hme hg => by
        unfold Room.remove_player
        split
        · exact h
        · rename_i k hres
          split
          · exact h
          · exact h
          · rename_i p hsl
            split
            · rw [seatBroadcastEff_room]
              exact ordBoundP_update h p _ (fun d hd => by simp [UserD.leave_seat])
            · exact h)
  | addSeat uid =>
    exact stepA_handler_cases r uid _ _
      (fun rm => OrdBoundP rm.users rm.order_issuer) h
      (fun me hme hg => by
        obtain ⟨hu, _, hiss, _⟩ := add_seat_frame r uid me
        exact ordBoundP_of_frame hu hiss h)
  | takeOperator uid =>
    exact stepA_handler_cases r uid _ _
      (fun rm => OrdBoundP rm.users rm.order_issuer) h
      (fun me hme hg => by
        obtain ⟨hu, _, hiss, _⟩ := take_operator_frame r uid me
        exact ordBoundP_of_frame hu hiss h)
  | changeSettings uid quick =>
    exact stepA_handler_cases r uid _ _
      (fun rm => OrdBoundP rm.users rm.order_issuer) h
      (fun me hme hg => by
        obtain ⟨hu, _, hiss, _⟩ := change_settings_frame r uid me quick
        exact ordBoundP_of_frame hu hiss h)
  | startGame uid =>
    exact stepA_handler_cases r uid _ _
      (fun rm => OrdBoundP rm.users rm.order_issuer) h
      (fun me hme hg => by
        obtain ⟨hu, _, hiss, _⟩ := start_game_frame r uid me
        exact ordBoundP_of_frame hu hiss h)
  | boardInit uid =>
    exact stepA_handler_cases r uid _ _
      (fun rm => OrdBoundP rm.users rm.order_issuer) h
      (fun me hme hg => by rw [board_init_room]; exact h)
  | placeDog uid pos =>
    exact stepA_handler_cases r uid _ _
      (fun rm => OrdBoundP rm.users rm.order_issuer) h
      (fun me hme hg => by
        obtain ⟨hu, _, hiss, _⟩ := place_dog_frame r uid me pos
        exact ordBoundP_of_frame hu hiss h)

/-! ### Preservation of the operator-seated property -/

theorem opSeated_of_frame {r r' : Room} (hu : r'.users = r.users)
    (hox : r'.operator = r.operator) (h : OperatorSeated r) : OperatorSeated r' := by
  intro u hu'
  rw [hox] at hu'
  obtain ⟨d, hd, hs⟩ := h u hu'
  exact ⟨d, by rw [hu]; exact hd, hs⟩

theorem opSeated_users_update {r : Room} (hop : OperatorSeated r) {r' : Room}
    (hopx : r'.operator = r.operator) (k : Nat) (f : UserD → UserD)
    (hus : r'.users = updateU r.users k f) (hf : ∀ d, (f d).seat = d.seat) :
    OperatorSeated r' := by
  intro u hu
  rw [hopx] at hu
  obtain ⟨d, hd, hs⟩ := hop u hu
  rw [hus, lookupU_update]
  by_cases hk : u = k
  · rw [if_pos hk, hd]
    exact ⟨f d, rfl, by rw [hf]; exact hs⟩
  · rw [if_neg hk]
    exact ⟨d, hd, hs⟩

theorem opSeated_claim (r1 : Room) (uid : Nat)
    (hbase : ∀ u, r1.operator = some u → ∃ d, lookupU r1.users u = some d ∧ 0 ≤ d.seat)
    (huid : ∃ d, lookupU r1.users uid = some d ∧ 0 ≤ d.seat) :
    OperatorSeated (Room.seatBroadcastEff (Room.withOpClaim r1 uid)).room := by
  intro u hu
  rw [seatBroadcastEff_room] at hu
  rcases withOpClaim_operator r1 uid with hsame | hclaim
  · rw [hsame] at hu
    obtain ⟨d, hd, hs⟩ := hbase u hu
    exact ⟨d, by rw [seatBroadcastEff_room, withOpClaim_users]; exact hd, hs⟩
  · rw [hclaim] at hu
    cases hu
    obtain ⟨d, hd, hs⟩ := huid
    exact ⟨d, by rw [seatBroadcastEff_room, withOpClaim_users]; exact hd, hs⟩

theorem opSeated_take_seat_body (r : Room) (uid : Nat) (me : UserD) (seat : Int)
    (nick : String) (h1 : Inv1P r.users r.seats) (hop : OperatorSeated r)
    (hme : lookupU r.users uid = some me) (hsafe : 0 ≤ seat) :
    OperatorSeated (r.take_seat uid me seat nick).room := by
  unfold Room.take_seat
  by_cases hms : me.seat = seat
  · rw [if_pos hms]; exact hop
  · rw [if_neg hms]
    split
    · exact hop
    · rename_i k hres
      split
      · exact hop
      · exact hop
      · rename_i hsl
        split
        · split
          · exact opSeated_of_frame rfl rfl hop
          · rename_i seats2 heq
            apply opSeated_claim
            · intro u hu
              obtain ⟨d, hd, hs⟩ := hop u hu
              show ∃ d', lookupU (updateU r.users uid
                (fun d => d.take_seat_keep seat nick)) u = some d' ∧ 0 ≤ d'.seat
              rw [lookupU_update]
              by_cases hk : u = uid
              · rw [if_pos hk, hd]
                exact ⟨_, rfl, by simpa [UserD.take_seat_keep] using hsafe⟩
              · rw [if_neg hk]
                exact ⟨d, hd, hs⟩
            · show ∃ d', lookupU (updateU r.users uid
                (fun d => d.take_seat_keep seat nick)) uid = some d' ∧ 0 ≤ d'.seat
              rw [lookupU_update, if_pos rfl, hme]
              exact ⟨_, rfl, by simpa [UserD.take_seat_keep] using hsafe⟩
        · apply opSeated_claim
          · intro u hu
            obtain ⟨d, hd, hs⟩ := hop u hu
            show ∃ d', lookupU (updateU r.users uid
              (fun d => d.take_seat_ord seat nick (r.order_issuer + 1))) u
                = some d' ∧ 0 ≤ d'.seat
            rw [lookupU_update]
            by_cases hk : u = uid
            · rw [if_pos hk, hd]
              exact ⟨_, rfl, by simpa [UserD.take_seat_ord] using hsafe⟩
            · rw [if_neg hk]
              exact ⟨d, hd, hs⟩
          · show ∃ d', lookupU (updateU r.users uid
              (fun d => d.take_seat_ord seat nick (r.order_issuer + 1))) uid
                = some d' ∧ 0 ≤ d'.seat
            rw [lookupU_update, if_pos rfl, hme]
            exact ⟨_, rfl, by simpa [UserD.take_seat_ord] using hsafe⟩

theorem opSeated_remove_seat_body (r : Room) (uid : Nat) (me : UserD) (seat : Int)
    (h1 : Inv1P r.users r.seats) (hop : OperatorSeated r) :
    OperatorSeated (r.remove_seat uid me seat).room := by
  unfold Room.remove_seat
  split
  · exact hop
  · rename_i k hres
    split
    · exact hop
    · exact hop
    · rename_i hsl
      intro u hu
      have hu' : r.operator = some u := hu
      obtain ⟨d, hd, hs⟩ := hop u hu'
      have hj := h1.2 u d hd hs
      have hjk : d.seat.toNat ≠ k := by
        intro hh
        rw [hh, hsl] at hj
        simp at hj
      have hpost := inv1P_remove_seat h1 k hsl
      have hmem : ∃ i0, (r.seats.eraseIdx k).get? i0 = some (some u) := by
        by_cases hlt : d.seat.toNat < k
        · exact ⟨d.seat.toNat, by rw [get?_eraseIdx, if_pos hlt]; exact hj⟩
        · refine ⟨d.seat.toNat - 1, ?_⟩
          rw [get?_eraseIdx, if_neg (by omega)]
          have hh : d.seat.toNat - 1 + 1 = d.seat.toNat := by omega
          rw [hh]
          exact hj
      obtain ⟨i0, hi0⟩ := hmem
      obtain ⟨d', hd', hseat'⟩ := hpost.1 i0 u hi0
      exact ⟨d', hd', by omega⟩

theorem opSeated_remove_player_body (r : Room) (uid : Nat) (me : UserD) (seat : Int)
    (h1 : Inv1P r.users r.seats) (hop : OperatorSeated r) :
    OperatorSeated (r.remove_player uid me seat).room := by
  unfold Room.remove_player
  split
  · exact hop
  · rename_i k hres
    split
    · exact hop
    · exact hop
    · rename_i p hsl
      split
      · rename_i hcond
        by_cases hbv : (decide (p = uid) && decide (r.operator = some uid)) = true
        · rw [hbv]
          intro u hu
          have hu' : candFold (updateU r.users p UserD.leave_seat) (r.seats.set k none)
              = some u := hu
          obtain ⟨hmem, _, _⟩ := candFold_spec _ _ u hu'
          obtain ⟨i, hi⟩ := (occupantsOf_mem_iff _ _).mp hmem
          have hpost := inv1P_clear_slot h1 p k hsl
          obtain ⟨d', hd', hseat'⟩ := hpost.1 i u hi
          exact ⟨d', hd', by omega⟩
        · have hbv' : (decide (p = uid) && decide (r.operator = some uid)) = false := by
            simpa using hbv
          rw [hbv']
          intro u hu
          have hu' : r.operator = some u := hu
          obtain ⟨d, hd, hs⟩ := hop u hu'
          simp only [Bool.or_eq_true, decide_eq_true_eq] at hcond
          have hup : u ≠ p := by
            intro hh
            subst hh
            rcases hcond with hc1 | hc2
            · have hou : r.operator = some uid := by rw [← hc1]; exact hu'
              simp [hc1, hou] at hbv'
            · have hpu : u = uid := by
                rw [hc2] at hu'
                cases hu'
                rfl
              simp [hpu, hc2] at hbv'
          refine ⟨d, ?_, hs⟩
          show lookupU (updateU r.users p UserD.leave_seat) u = some d
          rw [lookupU_update, if_neg hup]
          exact hd
      · exact hop

theorem opSeated_hall_init_body (r : Room) (uid : Nat) (me : UserD)
    (hme : lookupU r.users uid = some me) (hop : OperatorSeated r) :
    OperatorSeated (r.hall_init uid me).room := by
  obtain ⟨huse, _, _, _, hcase⟩ := hall_init_frame r uid me
  intro u hu
  rcases hcase with hsame | ⟨hclaim, hpl⟩
  · rw [hsame] at hu
    obtain ⟨d, hd, hs⟩ := hop u hu
    exact ⟨d, by rw [huse]; exact hd, hs⟩
  · rw [hclaim] at hu
    cases hu
    refine ⟨me, by rw [huse]; exact hme, ?_⟩
    simpa [UserD.is_player] using hpl

theorem opSeated_take_operator_body (r : Room) (uid : Nat) (me : UserD)
    (hst : seatedB r uid = true) (hop : OperatorSeated r) :
    OperatorSeated (r.take_operator uid me).room := by
  obtain ⟨huse, _, _, _, hcase⟩ := take_operator_frame r uid me
  intro u hu
  rcases hcase with hsame | hclaim
  · rw [hsame] at hu
    obtain ⟨d, hd, hs⟩ := hop u hu
    exact ⟨d, by rw [huse]; exact hd, hs⟩
  · rw [hclaim] at hu
    cases hu
    unfold seatedB at hst
    cases hl : lookupU r.users uid with
    | none => rw [hl] at hst; simp at hst
    | some d =>
      rw [hl] at hst
      exact ⟨d, by rw [huse]; exact hl, by simpa [UserD.is_player] using hst⟩

theorem opSeated_stepA (r : Room) (a : Act) (h1 : Inv1P r.users r.seats)
    (hop : OperatorSeated r) (hsafe : SafeActB a = true) (hta : TakeOpOKB r a = true) :
    OperatorSeated (stepA r a) := by
  cases a with
  | register uid live =>
    obtain ⟨_, _, _, hox, hus⟩ := register_user_frame r uid live
    show OperatorSeated (r.register_user uid live).room
    rcases hus with ⟨d, hd, hu⟩ | ⟨hd, hu⟩
    · exact opSeated_users_update hop hox uid _ hu (fun d => rfl)
    · intro u hu'
      rw [hox] at hu'
      obtain ⟨d0, hd0, hs0⟩ := hop u hu'
      refine ⟨d0, ?_, hs0⟩
      rw [hu, lookupU_append_single, hd0]
  | unregister uid =>
    obtain ⟨_, _, _, hox, hus⟩ := unregister_user_frame r uid
    show OperatorSeated (r.unregister_user uid).room
    rcases hus with hu | ⟨d, hd, hp, hu⟩ | ⟨d, hd, hp, hu⟩
    · exact opSeated_of_frame hu hox hop
    · exact opSeated_users_update hop hox uid _ hu (fun d => rfl)
    · intro u hu'
      rw [hox] at hu'
      obtain ⟨d0, hd0, hs0⟩ := hop u hu'
      have hne : u ≠ uid := by
        intro hh
        subst hh
        rw [hd] at hd0
        cases hd0
        simp only [UserD.is_player, decide_eq_false_iff_not] at hp
        omega
      refine ⟨d0, ?_, hs0⟩
      rw [hu, lookupU_erase, if_neg hne]
      exact hd0
  | hallInit uid =>
    exact stepA_handler_cases r uid _ _ OperatorSeated hop
      (fun me hme hg => opSeated_hall_init_body r uid me hme hop)
  | takeSeat uid seat nick =>
    exact stepA_handler_cases r uid _ _ OperatorSeated hop
      (fun me hme hg => opSeated_take_seat_body r uid me seat nick h1 hop hme
        (by simpa [SafeActB] using hsafe))
  | removeSeat uid seat =>
    exact stepA_handler_cases r uid _ _ OperatorSeated hop
      (fun me hme hg => opSeated_remove_seat_body r uid me seat h1 hop)
  | removePlayer uid seat =>
    exact stepA_handler_cases r uid _ _ OperatorSeated hop
      (fun me hme hg => opSeated_remove_player_body r uid me seat h1 hop)
  | addSeat uid =>
    exact stepA_handler_cases r uid _ _ OperatorSeated hop
      (fun me hme hg => by
        obtain ⟨hu, _, _, _, hox⟩ := add_seat_frame r uid me
        exact opSeated_of_frame hu hox hop)
  | takeOperator uid =>
    exact stepA_handler_cases r uid _ _ OperatorSeated hop
      (fun me hme hg => opSeated_take_operator_body r uid me
        (by simpa [TakeOpOKB] using hta) hop)
  | changeSettings uid quick =>
    exact stepA_handler_cases r uid _ _ OperatorSeated hop
      (fun me hme hg => by
        obtain ⟨hu, _, _, _, hox⟩ := change_settings_frame r uid me quick
        exact opSeated_of_frame hu hox hop)
  | startGame uid =>
    exact stepA_handler_cases r uid _ _ OperatorSeated hop
      (fun me hme hg => by
        obtain ⟨hu, _, _, hox⟩ := start_game_frame r uid me
        exact opSeated_of_frame hu hox hop)
  | boardInit uid =>
    exact stepA_handler_cases r uid _ _ OperatorSeated hop
      (fun me hme hg => by rw [board_init_room]; exact hop)
  | placeDog uid pos =>
    exact stepA_handler_cases r uid _ _ OperatorSeated hop
      (fun me hme hg => by
        obtain ⟨hu, _, _, _, hox⟩ := place_dog_frame r uid me pos
        exact opSeated_of_frame hu hox hop)

/-! ### Run-level invariants -/

theorem inv1_init (n : Nat) : Inv1P (Room.init n).users (Room.init n).seats := by
  constructor
  · intro i u hi
    have hmem := List.get?_mem hi
    have := List.eq_of_mem_replicate hmem
    exact Option.noConfusion this
  · intro u d hd _
    exact Option.noConfusion hd

theorem inv1_run (acts : List Act) :
    ∀ r : Room, Inv1P r.users r.seats → (∀ a ∈ acts, SafeActB a = true) →
      Inv1P (acts.foldl stepA r).users (acts.foldl stepA r).seats := by
  induction acts with
  | nil => intro r h _; exact h
  | cons a rest ih =>
    intro r h hsafe
    rw [List.foldl_cons]
    exact ih (stepA r a) (inv1_stepA r a h (hsafe a (List.mem_cons_self _ _)))
      (fun b hb => hsafe b (List.mem_cons_of_mem _ hb))

/-- C1 (amended): starting from a fresh room, after any sequence of
operations in which every seat argument passed to `take_seat` is
non-negative, the occupied-seats/seated-users correspondence is a
bijection: a user is referenced by at most one slot, and a user is
referenced by slot `i` exactly when its stored seat index is `i`.
(The restriction is forced: a negative `take_seat` argument aliases an
existing slot through Python negative indexing, see the
counterexample; all other handlers may receive arbitrary arguments.) -/
theorem c1_bijection_of_nonneg_seats (n : Nat) (acts : List Act)
    (hsafe : ∀ a ∈ acts, SafeActB a = true) : SeatBijection (runFrom n acts) :=
  seatBijection_of_inv1 (inv1_run acts (Room.init n) (inv1_init n) hsafe)

/-- Witness for `c1_bijection_of_nonneg_seats` on a concrete run. -/
theorem c1_witness :
    SeatBijection (runFrom 2 [.register 0 true, .register 1 true, .takeSeat 0 0 "a",
      .takeSeat 1 1 "b", .removeSeat 0 2, .removePlayer 0 0]) :=
  c1_bijection_of_nonneg_seats 2 _ (by decide)

/-- A sequence is good when every `take_seat` argument is non-negative
and every `take_operator` is invoked by a then-seated user, checked
along the run. -/
def GoodSeqB : Room → List Act → Bool
  | _, [] => true
  | r, a :: rest => SafeActB a && TakeOpOKB r a && GoodSeqB (stepA r a) rest

theorem roomInv_run (acts : List Act) :
    ∀ r : Room,
      Inv1P r.users r.seats → OperatorSeated r → OrdBoundP r.users r.order_issuer →
      GoodSeqB r acts = true →
      Inv1P (acts.foldl stepA r).users (acts.foldl stepA r).seats ∧
        OperatorSeated (acts.foldl stepA r) ∧
        OrdBoundP (acts.foldl stepA r).users (acts.foldl stepA r).order_issuer := by
  induction acts with
  | nil => intro r h1 h2 h3 _; exact ⟨h1, h2, h3⟩
  | cons a rest ih =>
    intro r h1 h2 h3 hgood
    simp only [GoodSeqB, Bool.and_eq_true] at hgood
    obtain ⟨⟨hsafe, hta⟩, hrest⟩ := hgood
    rw [List.foldl_cons]
    exact ih (stepA r a) (inv1_stepA r a h1 hsafe) (opSeated_stepA r a h1 h2 hsafe hta)
      (ordBound_stepA r a h3) hrest

/-- C2 (amended): starting from a fresh room, after any good sequence
of operations — every `take_seat` argument non-negative and every
`take_operator` invoked by a user seated at that moment — a non-null
operator always references a stored user occupying a seat.  (Both
restrictions are forced: an unrestricted `take_operator` from an
unseated user makes that user operator, and a negative seat argument
corrupts the seat map; see the counterexample.) -/
theorem c2_operator_seated_of_goodseq (n : Nat) (acts : List Act)
    (hgood : GoodSeqB (Room.init n) acts = true) : OperatorSeated (runFrom n acts) :=
  (roomInv_run acts (Room.init n) (inv1_init n) (fun u hu => Option.noConfusion hu)
    (fun u d hd => Option.noConfusion hd) hgood).2.1

/-- Witness for `c2_operator_seated_of_goodseq`: the ghost-operator
failover scenario — the seated operator goes offline and a seated,
online user claims the operator role. -/
theorem c2_witness :
    OperatorSeated (runFrom 2 [.register 0 true, .register 1 true, .takeSeat 0 0 "a",
      .takeSeat 1 1 "b", .unregister 0, .takeOperator 1]) :=
  c2_operator_seated_of_goodseq 2 _ (by decide)

/-! ### Order discipline (C6) -/

theorem order_keep_take_seat_body (r : Room) (uid : Nat) (me : UserD) (s : Int)
    (nick : String) (hme : lookupU r.users uid = some me) (hpl : 0 ≤ me.seat) :
    ∀ d', lookupU (r.take_seat uid me s nick).room.users uid = some d' →
      d'.order = me.order := by
  unfold Room.take_seat
  by_cases hms : me.seat = s
  · rw [if_pos hms]
    intro d' hd'
    rw [hme] at hd'
    cases hd'
    rfl
  · rw [if_neg hms]
    split
    · intro d' hd'
      rw [hme] at hd'
      cases hd'
      rfl
    · rename_i k hres
      split
      · intro d' hd'
        rw [hme] at hd'
        cases hd'
        rfl
      · intro d' hd'
        rw [hme] at hd'
        cases hd'
        rfl
      · rename_i hsl
        split
        · split
          · intro d' hd'
            rw [hme] at hd'
            cases hd'
            rfl
          · rename_i seats2 heq
            intro d' hd'
            rw [seatBroadcastEff_room, withOpClaim_users] at hd'
            have : lookupU (updateU r.users uid (fun d => d.take_seat_keep s nick)) uid
                = some (me.take_seat_keep s nick) := by
              rw [lookupU_update, if_pos rfl, hme]
              rfl
            rw [this] at hd'
            cases hd'
            rfl
        · rename_i hnp
          exfalso
          simp only [UserD.is_player, decide_eq_true_eq] at hnp
          omega

theorem c6_order_discipline :
    (∀ (r : Room) (uid : Nat) (s : Int) (nick : String) (d : UserD),
      lookupU r.users uid = some d → 0 ≤ d.seat →
      ∀ d', lookupU (stepA r (.takeSeat uid s nick)).users uid = some d' →
        d'.order = d.order) ∧
    (∀ (r : Room) (uid : Nat) (s : Int) (nick : String) (d : UserD),
      r.gaming = false → lookupU r.users uid = some d → d.seat < 0 → 0 ≤ s →
      pyIdx r.seats s = some none →
      (∃ d', lookupU (stepA r (.takeSeat uid s nick)).users uid = some d' ∧
        d'.order = r.order_issuer + 1) ∧
      (stepA r (.takeSeat uid s nick)).order_issuer = r.order_issuer + 1 ∧
      (OrdBoundP r.users r.order_issuer →
        ∀ u' d', lookupU r.users u' = some d' → d'.order < r.order_issuer + 1)) ∧
    (∀ (n : Nat) (acts : List Act),
      OrdBoundP (runFrom n acts).users (runFrom n acts).order_issuer) := by
  refine ⟨?_, ?_, ?_⟩
  · intro r uid s nick d hd hseat d' hd'
    rcases handlerExec_room r uid "user.take_seat" (fun me => r.take_seat uid me s nick)
      with habort | ⟨me, hme, hg, hb⟩
    · have hru : (stepA r (.takeSeat uid s nick)).users = r.users := by
        show (handlerExec r uid "user.take_seat"
          (fun me => r.take_seat uid me s nick)).room.users = r.users
        rw [habort]
      rw [hru, hd] at hd'
      cases hd'
      rfl
    · have hme' : me = d := by
        rw [hd] at hme
        cases hme
        rfl
      subst hme'
      have hru : (stepA r (.takeSeat uid s nick)).users
          = (r.take_seat uid me s nick).room.users := by
        show (handlerExec r uid "user.take_seat"
          (fun x => r.take_seat uid x s nick)).room.users = _
        rw [hb]
      rw [hru] at hd'
      exact order_keep_take_seat_body r uid me s nick hd hseat d' hd'
  · intro r uid s nick d hg hd hseat hs hempty
    have hgd : guardCheck r uid d "user.take_seat" = some (!r.gaming) := rfl
    have hexec : stepA r (.takeSeat uid s nick) = (r.take_seat uid d s nick).room := by
      show (handlerExec r uid "user.take_seat"
        (fun me => r.take_seat uid me s nick)).room = _
      unfold handlerExec
      simp only [hd, hgd, hg, Bool.not_false]
    obtain ⟨k, hres, hget⟩ : ∃ k, pyResolve r.seats.length s = some k ∧
        r.seats.get? k = some none := by
      unfold pyIdx at hempty
      cases hr : pyResolve r.seats.length s with
      | none => rw [hr] at hempty; exact Option.noConfusion hempty
      | some k =>
        rw [hr] at hempty
        exact ⟨k, rfl, hempty⟩
    have hms : ¬ (d.seat = s) := by omega
    have hnp : d.is_player = false := by
      simp only [UserD.is_player, decide_eq_false_iff_not]
      omega
    have hbody : (r.take_seat uid d s nick).room.users
          = updateU r.users uid (fun x => x.take_seat_ord s nick (r.order_issuer + 1)) ∧
        (r.take_seat uid d s nick).room.order_issuer = r.order_issuer + 1 := by
      unfold Room.take_seat
      rw [if_neg hms]
      simp only [hres, hget, hnp, Bool.false_eq_true, if_false]
      constructor
      · rw [seatBroadcastEff_room, withOpClaim_users]
      · rw [seatBroadcastEff_room, withOpClaim_order_issuer]
    refine ⟨⟨d.take_seat_ord s nick (r.order_issuer + 1), ?_, rfl⟩, ?_, ?_⟩
    · rw [hexec, hbody.1]
      rw [lookupU_update, if_pos rfl, hd]
      rfl
    · rw [hexec, hbody.2]
    · intro hbound u' d' hd'
      exact Nat.lt_succ_of_le (hbound u' d' hd')
  · intro n acts
    have h0 : OrdBoundP (Room.init n).users (Room.init n).order_issuer :=
      fun u d hd => Option.noConfusion hd
    clear h0
    induction acts using List.reverseRecOn with
    | nil => exact fun u d hd => Option.noConfusion hd
    | append_singleton rest a ih =>
      unfold runFrom
      rw [List.foldl_append, List.foldl_cons, List.foldl_nil]
      exact ordBound_stepA _ a ih

/-- Witness for `c6_order_discipline`: a seated user moving to another
seat keeps its order. -/
theorem c6_witness :
    ∀ d', lookupU (stepA (runFrom 2 [.register 0 true, .takeSeat 0 0 "a"])
        (.takeSeat 0 1 "b")).users 0 = some d' →
      d'.order = (⟨some true, 0, "a", 1⟩ : UserD).order :=
  c6_order_discipline.1 (runFrom 2 [.register 0 true, .takeSeat 0 0 "a"]) 0 1 "b"
    ⟨some true, 0, "a", 1⟩ (by decide) (by decide)

/-! ### Game start (C8) -/

theorem allPlayers_none_of_empty :
    ∀ (seats : List (Option Nat)), (∃ i, seats.get? i = some none) →
      allPlayers seats = none := by
  intro seats
  induction seats with
  | nil =>
    rintro ⟨i, hi⟩
    simp at hi
  | cons slot rest ih =>
    rintro ⟨i, hi⟩
    cases slot with
    | none => rfl
    | some p =>
      cases i with
      | zero => simp at hi
      | succ i' =>
        show (allPlayers rest).map (fun l => p :: l) = none
        rw [ih ⟨i', by simpa using hi⟩]
        rfl

theorem allPlayers_some_of_full :
    ∀ (seats : List (Option Nat)), (∀ slot ∈ seats, slot ≠ none) →
      allPlayers seats = some (occupantsOf seats) ∧
        (occupantsOf seats).length = seats.length := by
  intro seats
  induction seats with
  | nil => intro _; exact ⟨rfl, rfl⟩
  | cons slot rest ih =>
    intro hfull
    cases slot with
    | none => exact absurd rfl (hfull none (List.mem_cons_self _ _))
    | some p =>
      obtain ⟨h1, h2⟩ := ih (fun s hs => hfull s (List.mem_cons_of_mem _ hs))
      constructor
      · show (allPlayers rest).map (fun l => p :: l) = _
        rw [h1, occupantsOf_cons_some]
        rfl
      · rw [occupantsOf_cons_some]
        simp [h2]

theorem lookup_mem_entry :
    ∀ (us : List (Nat × UserD)) (u : Nat) (d : UserD), lookupU us u = some d →
      ∃ p ∈ us, p.1 = u := by
  intro us
  induction us with
  | nil => intro u d hd; exact Option.noConfusion hd
  | cons hd0 tl ih =>
    intro u d hd
    obtain ⟨k0, d0⟩ := hd0
    by_cases hk : k0 = u
    · exact ⟨(k0, d0), List.mem_cons_self _ _, hk⟩
    · rw [show lookupU ((k0, d0) :: tl) u = lookupU tl u from by
        simp [lookupU, hk]] at hd
      obtain ⟨p, hp, hpu⟩ := ih u d hd
      exact ⟨p, List.mem_cons_of_mem _ hp, hpu⟩

theorem broadcast_mem_of (r : Room) (t : String) :
    ∀ (l : List (Nat × UserD)) (acc : List Send × Bool) (p : Nat × UserD), p ∈ l →
      ∀ s ∈ (r.send_data_to p.1 t).1,
        s ∈ (l.foldr (fun q a =>
          let sq := r.send_data_to q.1 t
          (sq.1 ++ a.1, sq.2 || a.2)) acc).1 := by
  intro l
  induction l with
  | nil => intro acc p hp; exact absurd hp (List.not_mem_nil _)
  | cons q0 tl ih =>
    intro acc p hp s hs
    rw [List.foldr_cons]
    rcases List.mem_cons.mp hp with rfl | hp'
    · exact List.mem_append.mpr (Or.inl hs)
    · exact List.mem_append.mpr (Or.inr (ih acc p hp' s hs))

/-- Every online member receives a broadcast frame. -/
theorem broadcast_delivers (r : Room) (t : String) (u : Nat) (du : UserD)
    (hu : lookupU r.users u = some du) (hon : du.is_online = true)
    (payload : Frame) (hp : r.payloadFor u t = some payload) :
    (u, ("type", JVal.js t) :: payload) ∈ (r.broadcast_data t).1 := by
  obtain ⟨p, hpmem, hpu⟩ := lookup_mem_entry r.users u du hu
  have hs : (u, ("type", JVal.js t) :: payload) ∈ (r.send_data_to p.1 t).1 := by
    rw [hpu]
    unfold Room.send_data_to
    rw [hp, hu]
    simp [UserD.send_data, hon]
  unfold Room.broadcast_data
  exact broadcast_mem_of r t r.users ([], false) p hpmem _ hs

theorem gaming_absorbing (r : Room) (a : Act) (h : r.gaming = true) :
    (stepA r a).gaming = true := by
  cases a with
  | register uid live =>
    obtain ⟨_, _, hg, _, _⟩ := register_user_frame r uid live
    show (r.register_user uid live).room.gaming = true
    rw [hg]
    exact h
  | unregister uid =>
    obtain ⟨_, _, hg, _, _⟩ := unregister_user_frame r uid
    show (r.unregister_user uid).room.gaming = true
    rw [hg]
    exact h
  | hallInit uid =>
    exact stepA_handler_cases r uid _ _ (fun rm => rm.gaming = true) h
      (fun me hme hg => by
        have hgd : guardCheck r uid me "hall.init" = some (!r.gaming) := rfl
        rw [hgd, h] at hg
        simp at hg)
  | takeSeat uid seat nick =>
    exact stepA_handler_cases r uid _ _ (fun rm => rm.gaming = true) h
      (fun me hme hg => by
        have hgd : guardCheck r uid me "user.take_seat" = some (!r.gaming) := rfl
        rw [hgd, h] at hg
        simp at hg)
  | removeSeat uid seat =>
    exact stepA_handler_cases r uid _ _ (fun rm => rm.gaming = true) h
      (fun me hme hg => by
        have hgd : guardCheck r uid me "room.remove_seat"
            = some (decide (r.operator = some uid) && !r.gaming) := rfl
        rw [hgd, h] at hg
        simp at hg)
  | removePlayer uid seat =>
    exact stepA_handler_cases r uid _ _ (fun rm => rm.gaming = true) h
      (fun me hme hg => by
        have hgd : guardCheck r uid me "room.remove_player" = some (!r.gaming) := rfl
        rw [hgd, h] at hg
        simp at hg)
  | addSeat uid =>
    exact stepA_handler_cases r uid _ _ (fun rm => rm.gaming = true) h
      (fun me hme hg => by
        have hgd : guardCheck r uid me "room.add_seat"
            = some (decide (r.operator = some uid) && !r.gaming) := rfl
        rw [hgd, h] at hg
        simp at hg)
  | takeOperator uid =>
    exact stepA_handler_cases r uid _ _ (fun rm => rm.gaming = true) h
      (fun me hme hg => by
        have hgd : guardCheck r uid me "player.take_operator"
            = some (!decide (r.operator = some uid) && !r.gaming) := rfl
        rw [hgd, h] at hg
        simp at hg)
  | changeSettings uid quick =>
    exact stepA_handler_cases r uid _ _ (fun rm => rm.gaming = true) h
      (fun me hme hg => by
        have hgd : guardCheck r uid me "game.change_settings"
            = some (decide (r.operator = some uid) && !r.gaming) := rfl
        rw [hgd, h] at hg
        simp at hg)
  | startGame uid =>
    exact stepA_handler_cases r uid _ _ (fun rm => rm.gaming = true) h
      (fun me hme hg => by
        have hgd : guardCheck r uid me "game.start"
            = some (decide (r.operator = some uid) && !r.gaming) := rfl
        rw [hgd, h] at hg
        simp at hg)
  | boardInit uid =>
    exact stepA_handler_cases r uid _ _ (fun rm => rm.gaming = true) h
      (fun me hme hg => by rw [board_init_room]; exact h)
  | placeDog uid pos =>
    exact stepA_handler_cases r uid _ _ (fun rm => rm.gaming = true) h
      (fun me hme hg => by
        obtain ⟨_, _, _, hgm, _⟩ := place_dog_frame r uid me pos
        rw [hgm]
        exact h)

theorem send_data_to_room_status_no_exn (r2 : Room) (u : Nat) :
    (r2.send_data_to u "room.status").2 = false := by
  unfold Room.send_data_to
  have hp : r2.payloadFor u "room.status" = some [("gaming", JVal.jb r2.gaming)] := rfl
  simp only [hp]
  split <;> rfl

theorem broadcast_room_status_no_exn_aux (r2 : Room) :
    ∀ l : List (Nat × UserD),
      (l.foldr (fun p acc =>
        let s := r2.send_data_to p.1 "room.status"
        (s.1 ++ acc.1, s.2 || acc.2)) (([] : List Send), false)).2 = false := by
  intro l
  induction l with
  | nil => rfl
  | cons q tl ih =>
    rw [List.foldr_cons]
    show ((r2.send_data_to q.1 "room.status").2
      || (tl.foldr _ (([] : List Send), false)).2) = false
    rw [send_data_to_room_status_no_exn, ih]
    rfl

theorem broadcast_room_status_no_exn (r2 : Room) :
    (r2.broadcast_data "room.status").2 = false :=
  broadcast_room_status_no_exn_aux r2 r2.users

/-- C8 (amended): for a Waiting room whose operator invokes
`game.start`: (i) with an empty seat anywhere the call is a complete
no-op; (ii) with every seat occupied and at least one seat present,
the stage flips to Gaming, per-player state is initialized to the
fixed values (all players active, score pair `[0, 3]` each, no tiles,
no dogs), seats and users are untouched, no exception escapes, and
every online member is sent the new `room.status{gaming: true}` frame;
(iii) once `gaming` is true no operation ever resets it.  (The
"at least one seat" hypothesis is forced: with a zero-length seat list
the code sets `gaming` and then raises `IndexError` at `players[0]`,
broadcasting nothing — see the counterexample.) -/
theorem c8_start_game (r : Room) (uid : Nat) (d : UserD)
    (hg : r.gaming = false) (hop : r.operator = some uid)
    (hd : lookupU r.users uid = some d) :
    ((∃ i, r.seats.get? i = some none) →
      execAct r (.startGame uid) = ⟨r, [], false⟩) ∧
    (r.seats ≠ [] → (∀ slot ∈ r.seats, slot ≠ none) →
      (execAct r (.startGame uid)).room.gaming = true ∧
      (execAct r (.startGame uid)).room.player_active
        = some (List.replicate r.seats.length true) ∧
      (execAct r (.startGame uid)).room.player_scores
        = some (List.replicate r.seats.length ([0, 3] : List Int)) ∧
      (execAct r (.startGame uid)).room.player_tiles
        = some (List.replicate r.seats.length (List.replicate 5 (none : Option Bool))) ∧
      (execAct r (.startGame uid)).room.player_dogs
        = some (List.replicate r.seats.length (-1 : Int)) ∧
      (execAct r (.startGame uid)).room.seats = r.seats ∧
      (execAct r (.startGame uid)).room.users = r.users ∧
      (execAct r (.startGame uid)).exn = false ∧
      (∀ u du, lookupU r.users u = some du → du.is_online = true →
        (u, [("type", JVal.js "room.status"), ("gaming", JVal.jb true)])
          ∈ (execAct r (.startGame uid)).sends)) ∧
    (∀ (r' : Room) (a : Act), r'.gaming = true → (stepA r' a).gaming = true) := by
  have hgd : guardCheck r uid d "game.start"
      = some (decide (r.operator = some uid) && !r.gaming) := rfl
  have hexec : execAct r (.startGame uid) = r.start_game uid d := by
    show handlerExec r uid "game.start" (fun me => r.start_game uid me) = _
    unfold handlerExec
    simp only [hd, hgd, hop, hg, decide_True, Bool.not_false, Bool.and_self]
  refine ⟨?_, ?_, fun r' a h => gaming_absorbing r' a h⟩
  · rintro ⟨i, hi⟩
    rw [hexec]
    unfold Room.start_game
    rw [allPlayers_none_of_empty r.seats ⟨i, hi⟩]
  · intro hne hfull
    obtain ⟨hall, hlen⟩ := allPlayers_some_of_full r.seats hfull
    have hlen0 : (occupantsOf r.seats).length ≠ 0 := by
      rw [hlen]
      intro hh
      exact hne (List.length_eq_zero.mp hh)
    obtain ⟨l0, tl0, hcons⟩ : ∃ l0 tl0, occupantsOf r.seats = l0 :: tl0 := by
      cases hocc : occupantsOf r.seats with
      | nil => exact absurd (by rw [hocc]; rfl) hlen0
      | cons a b => exact ⟨a, b, rfl⟩
    have hlen2 : (l0 :: tl0).length = r.seats.length := by
      rw [← hcons, hlen]
    rw [hexec]
    unfold Room.start_game
    rw [hcons] at hall
    simp only [hall, List.head?, hlen2]
    refine ⟨?_, ?_, ?_, ?_, ?_, ?_, ?_, ?_, ?_⟩
    all_goals try trivial
    · exact broadcast_room_status_no_exn _
    · intro u du hu hon
      refine broadcast_delivers _ "room.status" u du ?_ hon _ ?_
      · exact hu
      · rfl

/-- A full Waiting 2-seat room whose operator is user 0. -/
def c8room : Room :=
  runFrom 2 [.register 0 true, .register 1 true, .takeSeat 0 0 "a", .takeSeat 1 1 "b"]

/-- Witness for `c8_start_game`: starting a full 2-seat room flips the
stage, initializes the score pairs and raises nothing. -/
theorem c8_witness :
    (execAct c8room (.startGame 0)).room.gaming = true ∧
    (execAct c8room (.startGame 0)).room.player_scores
      = some (List.replicate c8room.seats.length ([0, 3] : List Int)) ∧
    (execAct c8room (.startGame 0)).exn = false := by
  have h := (c8_start_game c8room 0 ⟨some true, 0, "a", 1⟩ (by decide) (by decide)
    (by decide)).2.1 (by decide) (by decide)
  exact ⟨h.1, h.2.2.1, h.2.2.2.2.2.2.2.1⟩

/-! ### Outbound frame shapes (C9) -/

/-- One entry of a `seat.status` payload: empty seat or the four-field
player object. -/
def seatEntryOkB : JVal → Bool
  | .jnull => true
  | .jobj fields => decide (fields.map Prod.fst = ["nickname", "online", "me", "operator"])
  | _ => false

/-- The frame shapes the code actually transmits. -/
def codeFrameOkB (s : Send) : Bool :=
  match s.2 with
  | ("type", .js t) :: rest =>
    if t = "room.status" then decide (rest.map Prod.fst = ["gaming"])
    else if t = "seat.status" then
      match rest with
      | [("status", .jarr items)] => items.all seatEntryOkB
      | _ => false
    else if t = "game.settings" then decide (rest.map Prod.fst = ["quick_game"])
    else if t = "game.status" then
      decide (rest.map Prod.fst = ["leader", "doors", "scores", "tiles"])
    else if t = "tiles.setup" then decide (rest.map Prod.fst = ["active"])
    else if t = "dog.place" then decide (rest.map Prod.fst = ["position"])
    else false
  | _ => false

theorem seat_status_entry_ok (r : Room) (uid : Nat) :
    ∀ x ∈ r.get_seat_status uid, seatEntryOkB x = true := by
  intro x hx
  unfold Room.get_seat_status at hx
  obtain ⟨slot, hslot, hfx⟩ := List.mem_map.mp hx
  subst hfx
  cases slot with
  | none => rfl
  | some p =>
    cases hl : lookupU r.users p <;> simp [hl, seatEntryOkB]

theorem get_game_status_fields (r : Room) (fr : Frame)
    (h : r.get_game_status = some fr) :
    fr.map Prod.fst = ["leader", "doors", "scores", "tiles"] := by
  unfold Room.get_game_status at h
  split at h
  · split at h
    · cases h
      rfl
    · exact Option.noConfusion h
  · exact Option.noConfusion h

theorem payloadFor_ok (r : Room) (uid : Nat) (t : String) (payload : Frame)
    (hp : r.payloadFor uid t = some payload) :
    codeFrameOkB (uid, ("type", JVal.js t) :: payload) = true := by
  unfold Room.payloadFor at hp
  by_cases h1 : t = "room.status"
  · rw [if_pos h1] at hp
    cases hp
    subst h1
    rfl
  · rw [if_neg h1] at hp
    by_cases h2 : t = "seat.status"
    · rw [if_pos h2] at hp
      cases hp
      subst h2
      show (r.get_seat_status uid).all seatEntryOkB = true
      rw [List.all_eq_true]
      exact fun x hx => seat_status_entry_ok r uid x hx
    · rw [if_neg h2] at hp
      by_cases h3 : t = "game.settings"
      · rw [if_pos h3] at hp
        cases hp
        subst h3
        rfl
      · rw [if_neg h3] at hp
        by_cases h4 : t = "game.status"
        · rw [if_pos h4] at hp
          subst h4
          show decide (payload.map Prod.fst = ["leader", "doors", "scores", "tiles"]) = true
          rw [get_game_status_fields r payload hp]
          rfl
        · rw [if_neg h4] at hp
          by_cases h5 : t = "tiles.setup"
          · rw [if_pos h5] at hp
            subst h5
            cases hpa : r.player_active with
            | none => rw [hpa] at hp; exact Option.noConfusion hp
            | some act =>
              rw [hpa] at hp
              cases hp
              rfl
          · rw [if_neg h5] at hp
            by_cases h6 : t = "dog.place"
            · rw [if_pos h6] at hp
              subst h6
              split at hp
              · exact Option.noConfusion hp
              · rename_i d hu
                split at hp
                · split at hp
                  · exact Option.noConfusion hp
                  · rename_i dogs hdg
                    cases hpi : pyIdx dogs d.seat with
                    | none => rw [hpi] at hp; exact Option.noConfusion hp
                    | some pos =>
                      rw [hpi] at hp
                      cases hp
                      rfl
                · cases hp
                  rfl
            · rw [if_neg h6] at hp
              exact Option.noConfusion hp

theorem send_data_to_frames_ok (r : Room) (uid : Nat) (t : String) :
    ∀ s ∈ (r.send_data_to uid t).1, codeFrameOkB s = true := by
  intro s hs
  unfold Room.send_data_to at hs
  split at hs
  · exact absurd hs (List.not_mem_nil _)
  · rename_i payload hp
    split at hs
    · exact absurd hs (List.not_mem_nil _)
    · rename_i d hu
      unfold UserD.send_data at hs
      by_cases hon : d.is_online = true
      · rw [if_pos hon] at hs
        rw [List.mem_singleton] at hs
        subst hs
        exact payloadFor_ok r uid t payload hp
      · simp only [Bool.not_eq_true] at hon
        rw [hon] at hs
        simp at hs

theorem broadcast_frames_ok (r : Room) (t : String) :
    ∀ s ∈ (r.broadcast_data t).1, codeFrameOkB s = true := by
  intro s hs
  obtain ⟨p, _, hm⟩ := mem_broadcast r t s.1 s.2 (by simpa using hs)
  exact send_data_to_frames_ok r p.1 t _ hm

/-- Every frame in this effect has one of the code's shapes. -/
def EffOk (e : Eff) : Prop := ∀ s ∈ e.sends, codeFrameOkB s = true

theorem handlerExec_sends (r : Room) (uid : Nat) (t : String) (body : UserD → Eff) :
    (handlerExec r uid t body).sends = [] ∨
      ∃ me, handlerExec r uid t body = body me := by
  unfold handlerExec
  split
  · exact Or.inl rfl
  · rename_i me hu
    split
    · exact Or.inl rfl
    · exact Or.inl rfl
    · exact Or.inr ⟨me, rfl⟩

theorem effOk_seatBroadcastEff (r2 : Room) : EffOk (Room.seatBroadcastEff r2) :=
  fun s hs => broadcast_frames_ok r2 "seat.status" s hs

theorem effOk_place_dog_finish (r : Room) (fs : List Send)
    (hfs : ∀ s ∈ fs, codeFrameOkB s = true) : EffOk (r.place_dog_finish fs) := by
  intro s hs
  have hs' : s ∈ fs ++ (r.broadcast_data "game.status").1 ++
      (match r.last_message with
        | none => (([] : List Send), true)
        | some t => r.broadcast_data t).1 := hs
  rcases List.mem_append.mp hs' with h12 | h3
  · rcases List.mem_append.mp h12 with h1 | h2
    · exact hfs s h1
    · exact broadcast_frames_ok _ _ s h2
  · cases hlm : r.last_message with
    | none => rw [hlm] at h3; exact absurd h3 (List.not_mem_nil _)
    | some t => rw [hlm] at h3; exact broadcast_frames_ok _ t s h3

theorem effOk_take_seat_body (r : Room) (uid : Nat) (me : UserD) (seat : Int)
    (nick : String) : EffOk (r.take_seat uid me seat nick) := by
  unfold Room.take_seat
  by_cases hms : me.seat = seat
  · rw [if_pos hms]
    intro s hs
    exact absurd hs (List.not_mem_nil _)
  · rw [if_neg hms]
    split
    · intro s hs; exact absurd hs (List.not_mem_nil _)
    · rename_i k hres
      split
      · intro s hs; exact absurd hs (List.not_mem_nil _)
      · intro s hs; exact absurd hs (List.not_mem_nil _)
      · rename_i hsl
        split
        · split
          · intro s hs; exact absurd hs (List.not_mem_nil _)
          · exact effOk_seatBroadcastEff _
        · exact effOk_seatBroadcastEff _

theorem effOk_place_dog_body (r : Room) (uid : Nat) (me : UserD) (pos : Int) :
    EffOk (r.place_dog uid me pos) := by
  have hsend : ∀ (r1 : Room), ∀ s ∈ (r1.send_data_to uid "dog.place").1,
      codeFrameOkB s = true := fun r1 => send_data_to_frames_ok r1 uid "dog.place"
  unfold Room.place_dog
  split
  · intro s hs; exact absurd hs (List.not_mem_nil _)
  · rename_i dogs hdg
    split
    · intro s hs; exact absurd hs (List.not_mem_nil _)
    · rename_i dogs1 hset
      split
      · exact fun s hs => hsend _ s hs
      · rename_i tiles htl
        split
        · exact fun s hs => hsend _ s hs
        · rename_i tiles1 hset2
          split
          · exact fun s hs => hsend _ s hs
          · rename_i act hac
            split
            · exact fun s hs => hsend _ s hs
            · rename_i act1 hset3
              split
              · exact effOk_place_dog_finish _ _ (fun s hs => hsend _ s hs)
              · split
                · exact fun s hs => hsend _ s hs
                · rename_i l hld
                  split
                  · exact fun s hs => hsend _ s hs
                  · rename_i dl hdl
                    split
                    · exact fun s hs => hsend _ s hs
                    · exact effOk_place_dog_finish _ _ (fun s hs => hsend _ s hs)

theorem effOk_execAct (r : Room) (a : Act) : EffOk (execAct r a) := by
  cases a with
  | register uid live =>
    show EffOk (r.register_user uid live)
    unfold Room.register_user
    split
    · exact fun s hs => send_data_to_frames_ok _ uid "room.status" s hs
    · exact fun s hs => send_data_to_frames_ok _ uid "room.status" s hs
  | unregister uid =>
    show EffOk (r.unregister_user uid)
    unfold Room.unregister_user
    split
    · intro s hs; exact absurd hs (List.not_mem_nil _)
    · split
      · exact fun s hs => broadcast_frames_ok _ "seat.status" s hs
      · intro s hs; exact absurd hs (List.not_mem_nil _)
  | hallInit uid =>
    rcases handlerExec_sends r uid "hall.init" (fun me => r.hall_init uid me)
      with hemp | ⟨me, hb⟩
    · intro s hs
      rw [show (execAct r (.hallInit uid)).sends = [] from hemp] at hs
      exact absurd hs (List.not_mem_nil _)
    · show EffOk (handlerExec r uid "hall.init" (fun me => r.hall_init uid me))
      rw [hb]
      unfold Room.hall_init
      split
      · exact fun s hs => broadcast_frames_ok _ "seat.status" s hs
      · exact fun s hs => send_data_to_frames_ok _ uid "seat.status" s hs
  | takeSeat uid seat nick =>
    rcases handlerExec_sends r uid "user.take_seat" (fun me => r.take_seat uid me seat nick)
      with hemp | ⟨me, hb⟩
    · intro s hs
      rw [show (execAct r (.takeSeat uid seat nick)).sends = [] from hemp] at hs
      exact absurd hs (List.not_mem_nil _)
    · show EffOk (handlerExec r uid "user.take_seat" (fun me => r.take_seat uid me seat nick))
      rw [hb]
      exact effOk_take_seat_body r uid me seat nick
  | removeSeat uid seat =>
    rcases handlerExec_sends r uid "room.remove_seat" (fun me => r.remove_seat uid me seat)
      with hemp | ⟨me, hb⟩
    · intro s hs
      rw [show (execAct r (.removeSeat uid seat)).sends = [] from hemp] at hs
      exact absurd hs (List.not_mem_nil _)
    · show EffOk (handlerExec r uid "room.remove_seat" (fun me => r.remove_seat uid me seat))
      rw [hb]
      unfold Room.remove_seat
      split
      · intro s hs; exact absurd hs (List.not_mem_nil _)
      · rename_i k hres
        split
        · intro s hs; exact absurd hs (List.not_mem_nil _)
        · intro s hs; exact absurd hs (List.not_mem_nil _)
        · exact fun s hs => broadcast_frames_ok _ "seat.status" s hs
  | removePlayer uid seat =>
    rcases handlerExec_sends r uid "room.remove_player" (fun me => r.remove_player uid me seat)
      with hemp | ⟨me, hb⟩
    · intro s hs
      rw [show (execAct r (.removePlayer uid seat)).sends = [] from hemp] at hs
      exact absurd hs (List.not_mem_nil _)
    · show EffOk (handlerExec r uid "room.remove_player" (fun me => r.remove_player uid me seat))
      rw [hb]
      unfold Room.remove_player
      split
      · intro s hs; exact absurd hs (List.not_mem_nil _)
      · rename_i k hres
        split
        · intro s hs; exact absurd hs (List.not_mem_nil _)
        · intro s hs; exact absurd hs (List.not_mem_nil _)
        · rename_i p hsl
          split
          · exact effOk_seatBroadcastEff _
          · intro s hs; exact absurd hs (List.not_mem_nil _)
  | addSeat uid =>
    rcases handlerExec_sends r uid "room.add_seat" (fun me => r.add_seat uid me)
      with hemp | ⟨me, hb⟩
    · intro s hs
      rw [show (execAct r (.addSeat uid)).sends = [] from hemp] at hs
      exact absurd hs (List.not_mem_nil _)
    · show EffOk (handlerExec r uid "room.add_seat" (fun me => r.add_seat uid me))
      rw [hb]
      exact fun s hs => broadcast_frames_ok _ "seat.status" s hs
  | takeOperator uid =>
    rcases handlerExec_sends r uid "player.take_operator" (fun me => r.take_operator uid me)
      with hemp | ⟨me, hb⟩
    · intro s hs
      rw [show (execAct r (.takeOperator uid)).sends = [] from hemp] at hs
      exact absurd hs (List.not_mem_nil _)
    · show EffOk (handlerExec r uid "player.take_operator" (fun me => r.take_operator uid me))
      rw [hb]
      simp only [Room.take_operator]
      repeat' split
      all_goals
        first
        | exact fun s hs => broadcast_frames_ok _ "seat.status" s hs
        | exact fun s hs => absurd hs (List.not_mem_nil _)
  | changeSettings uid quick =>
    rcases handlerExec_sends r uid "game.change_settings"
        (fun me => r.change_settings uid me quick)
      with hemp | ⟨me, hb⟩
    · intro s hs
      rw [show (execAct r (.changeSettings uid quick)).sends = [] from hemp] at hs
      exact absurd hs (List.not_mem_nil _)
    · show EffOk (handlerExec r uid "game.change_settings"
        (fun me => r.change_settings uid me quick))
      rw [hb]
      unfold Room.change_settings
      split
      · exact fun s hs => broadcast_frames_ok _ "game.settings" s hs
      · intro s hs; exact absurd hs (List.not_mem_nil _)
  | startGame uid =>
    rcases handlerExec_sends r uid "game.start" (fun me => r.start_game uid me)
      with hemp | ⟨me, hb⟩
    · intro s hs
      rw [show (execAct r (.startGame uid)).sends = [] from hemp] at hs
      exact absurd hs (List.not_mem_nil _)
    · show EffOk (handlerExec r uid "game.start" (fun me => r.start_game uid me))
      rw [hb]
      unfold Room.start_game
      split
      · intro s hs; exact absurd hs (List.not_mem_nil _)
      · split
        · intro s hs; exact absurd hs (List.not_mem_nil _)
        · exact fun s hs => broadcast_frames_ok _ "room.status" s hs
  | boardInit uid =>
    rcases handlerExec_sends r uid "board.init" (fun me => r.board_init uid me)
      with hemp | ⟨me, hb⟩
    · intro s hs
      rw [show (execAct r (.boardInit uid)).sends = [] from hemp] at hs
      exact absurd hs (List.not_mem_nil _)
    · show EffOk (handlerExec r uid "board.init" (fun me => r.board_init uid me))
      rw [hb]
      intro s hs
      have hs' : s ∈ (r.send_data_to uid "seat.status").1
          ++ (r.send_data_to uid "game.status").1
          ++ (r.send_data_to uid "dog.place").1
          ++ (match r.last_message with
              | none => (([] : List Send), true)
              | some t => r.send_data_to uid t).1 := hs
      rcases List.mem_append.mp hs' with h123 | h4
      · rcases List.mem_append.mp h123 with h12 | h3
        · rcases List.mem_append.mp h12 with h1 | h2
          · exact send_data_to_frames_ok _ uid _ s h1
          · exact send_data_to_frames_ok _ uid _ s h2
        · exact send_data_to_frames_ok _ uid _ s h3
      · cases hlm : r.last_message with
        | none => rw [hlm] at h4; exact absurd h4 (List.not_mem_nil _)
        | some t => rw [hlm] at h4; exact send_data_to_frames_ok _ uid t s h4
  | placeDog uid pos =>
    rcases handlerExec_sends r uid "dog.place" (fun me => r.place_dog uid me pos)
      with hemp | ⟨me, hb⟩
    · intro s hs
      rw [show (execAct r (.placeDog uid pos)).sends = [] from hemp] at hs
      exact absurd hs (List.not_mem_nil _)
    · show EffOk (handlerExec r uid "dog.place" (fun me => r.place_dog uid me pos))
      rw [hb]
      exact effOk_place_dog_body r uid me pos

theorem traceFrom_ok_aux :
    ∀ (acts : List Act) (r : Room) (acc : List Send),
      (∀ s ∈ acc, codeFrameOkB s = true) →
      ∀ s ∈ (acts.foldl
          (fun p a => ((execAct p.1 a).room, p.2 ++ (execAct p.1 a).sends)) (r, acc)).2,
        codeFrameOkB s = true := by
  intro acts
  induction acts with
  | nil => intro r acc hacc s hs; exact hacc s hs
  | cons a rest ih =>
    intro r acc hacc s hs
    rw [List.foldl_cons] at hs
    refine ih _ _ ?_ s hs
    intro x hx
    rcases List.mem_append.mp hx with h1 | h2
    · exact hacc x h1
    · exact effOk_execAct r a x h2

/-- C9 (amended): every frame the program actually transmits, over any
run, carries exactly one of the code's outbound type/field sets:
`room.status{gaming}`, `seat.status{status:[{nickname,online,me,
operator}|null,...]}`, `game.settings{quick_game}`,
`game.status{leader,doors,scores,tiles}`, `tiles.setup{active}`,
`dog.place{position}` — and no other outbound type exists.  (§6's list
`room.stage`, `game.status{start}`, `game.scores`, `user.init` does not
match the code: see the counterexample.) -/
theorem c9_outbound_frames (n : Nat) (acts : List Act) :
    ∀ s ∈ traceFrom n acts, codeFrameOkB s = true :=
  traceFrom_ok_aux acts (Room.init n) [] (fun s hs => absurd hs (List.not_mem_nil _))

/-- Witness for `c9_outbound_frames` at a concrete trace element. -/
theorem c9_witness :
    codeFrameOkB ((0 : Nat), [("type", JVal.js "room.status"),
      ("gaming", JVal.jb false)]) = true := by
  apply c9_outbound_frames 2 [.register 0 true]
  have ht : traceFrom 2 [.register 0 true]
      = [(0, [("type", JVal.js "room.status"), ("gaming", JVal.jb false)])] := rfl
  rw [ht]
  exact List.mem_singleton.mpr rfl
